import Mathlib

/-!
Shallow embedding of the editing core of `src/backend/main.py` (the real
Aspose branch of `DocumentState` together with the FastAPI mutation
endpoints).  The document tree is modelled as a list of paragraphs, each a
list of runs; the auto-generated run bookmarks (`Run_<uuid4>` names that
wrap each run) are modelled as a natural-number `id` field on each run,
with a `nextAddr` counter in the state standing in for the freshness of
`uuid4` names.  The opaque document engine (DOCX serialisation, HTML
rendering, page layout) is modelled by small deterministic stand-ins:
snapshots are the document value itself, rendered HTML is the concatenated
document text, and the page count is the constant 1 (the code only
guarantees `max(1, c)` for an engine-supplied `c`).
-/

namespace AsposeBackend

/-- RGB colour as parsed from a `#RRGGBB` string by `_apply_style_to_font`. -/
structure Color where
  r : Nat
  g : Nat
  b : Nat
deriving DecidableEq, Repr

/-- Character formatting carried by a run (`run.font` in Aspose). -/
structure Font where
  name : String
  size : Int
  bold : Bool
  italic : Bool
  color : Color
deriving DecidableEq, Repr

/-- Paragraph alignment values accepted by `_apply_style_to_paragraph`. -/
inductive Alignment where
  | left
  | center
  | right
  | justify
deriving DecidableEq, Repr

/-- Paragraph-level formatting (`para.paragraph_format`). -/
structure ParaFmt where
  alignment : Alignment
  first_line_indent : Int
deriving DecidableEq, Repr

/-- Engine default paragraph formatting (`aw.Paragraph(doc)`). -/
def ParaFmt.default : ParaFmt := { alignment := Alignment.left, first_line_indent := 0 }

/-- A run: an atomic span of uniformly formatted text.  The `id` field
models the auto-generated bookmark that wraps the run in the Python code
(`_wrap_run_with_bookmark`); text is a character list, matching Python
string slicing with `List.take`/`List.drop`. -/
structure Run where
  id : Nat
  text : List Char
  font : Font
deriving DecidableEq, Repr

/-- A paragraph: ordered runs plus block formatting. -/
structure Para where
  runs : List Run
  fmt : ParaFmt
deriving DecidableEq, Repr

/-- The `StyleUpdate` pydantic model: every field optional, absence means
"leave unchanged".  `font_size` and `first_line_indent` are floats in the
source on which no arithmetic is performed; they are modelled as `Int`. -/
structure StyleUpdate where
  font_name : Option String := none
  font_size : Option Int := none
  color : Option String := none
  alignment : Option String := none
  first_line_indent : Option Int := none
  bold : Option Bool := none
  italic : Option Bool := none
deriving DecidableEq, Repr

/-- Python truthiness of an optional string (`if style.font_name:`). -/
def truthyStr : Option String → Bool
  | some s => !s.isEmpty
  | none => false

/-- Python truthiness of an optional number (`if style.font_size:`). -/
def truthyInt : Option Int → Bool
  | some v => v != 0
  | none => false

/-- Value of a single hexadecimal digit, as accepted by `int(s, 16)`. -/
def hexVal : Char → Option Nat
  | c =>
    if '0' ≤ c ∧ c ≤ '9' then some (c.toNat - '0'.toNat)
    else if 'a' ≤ c ∧ c ≤ 'f' then some (c.toNat - 'a'.toNat + 10)
    else if 'A' ≤ c ∧ c ≤ 'F' then some (c.toNat - 'A'.toNat + 10)
    else none

/-- `int(slice, 16)` for a slice of at most two characters; `int("", 16)`
raises in Python, modelled as `none`. -/
def hexSlice : List Char → Option Nat
  | [] => none
  | [c] => hexVal c
  | [c, d] => do
      let x ← hexVal c
      let y ← hexVal d
      pure (16 * x + y)
  | _ => none

/-- The colour-parsing block of `_apply_style_to_font`: requires a leading
`#`, strips all leading `#` (`lstrip`), then reads the three byte slices
`[0:2]`, `[2:4]`, `[4:6]`; any failure is swallowed (colour unchanged). -/
def parseHexColor (s : String) : Option Color :=
  if s.startsWith "#" then
    let h := s.toList.dropWhile (fun c => c = '#')
    do
      let r ← hexSlice (h.take 2)
      let g ← hexSlice ((h.drop 2).take 2)
      let b ← hexSlice ((h.drop 4).take 2)
      pure ⟨r, g, b⟩
  else none

/-- `DocumentState._apply_style_to_font`, field by field with Python
truthiness on the guards. -/
def apply_style_to_font (f : Font) (style : StyleUpdate) : Font :=
  let f1 := match style.font_name with
    | some n => if n.isEmpty then f else { f with name := n }
    | none => f
  let f2 := match style.font_size with
    | some v => if v = 0 then f1 else { f1 with size := v }
    | none => f1
  let f3 := match style.bold with
    | some b => { f2 with bold := b }
    | none => f2
  let f4 := match style.italic with
    | some i => { f3 with italic := i }
    | none => f3
  match style.color with
  | some c =>
      if c.isEmpty then f4
      else match parseHexColor c with
        | some col => { f4 with color := col }
        | none => f4
  | none => f4

/-- The paragraph-format part of `_apply_style_to_paragraph`. -/
def apply_style_to_para_fmt (pf : ParaFmt) (style : StyleUpdate) : ParaFmt :=
  let pf1 :=
    if truthyStr style.alignment then
      match (style.alignment.getD "").toLower with
      | "left" => { pf with alignment := Alignment.left }
      | "center" => { pf with alignment := Alignment.center }
      | "right" => { pf with alignment := Alignment.right }
      | "justify" => { pf with alignment := Alignment.justify }
      | _ => pf
    else pf
  match style.first_line_indent with
  | some v => { pf1 with first_line_indent := v }
  | none => pf1

/-- `DocumentState._apply_style_to_paragraph` (mutates only the paragraph
format object). -/
def apply_style_to_paragraph (p : Para) (style : StyleUpdate) : Para :=
  { p with fmt := apply_style_to_para_fmt p.fmt style }

/-- Restyle one run in place (`self._apply_style_to_font(run.font, style)`). -/
def restyleRun (r : Run) (style : StyleUpdate) : Run :=
  { r with font := apply_style_to_font r.font style }

/-! ## Document helpers

The document body is a list of paragraphs whose children are runs;
bookmark nodes are represented by the `id` field of each run, so the
bookmark lookups `_find_bookmark` followed by `_run_in_bookmark` become a
lookup of the first run (in pre-order) carrying a given id, and a bookmark
left dangling by `delete_range` (its runs removed) simply fails to
resolve, exactly like `_run_in_bookmark` returning `None`. -/

/-- All runs of the document in pre-order. -/
def allRuns (d : List Para) : List Run :=
  (d.map Para.runs).flatten

/-- All run ids (bookmark names) currently bound in the document. -/
def docIds (d : List Para) : List Nat :=
  (allRuns d).map Run.id

/-- Concatenated text of a list of runs. -/
def runsText (l : List Run) : List Char :=
  (l.map Run.text).flatten

/-- Concatenated text of the whole document. -/
def docText (d : List Para) : List Char :=
  (d.map (fun p => runsText p.runs)).flatten

/-- `_find_bookmark` + `_run_in_bookmark`: resolve a stable address to its
run, `none` when the address is not bound to a live run. -/
def findRun (d : List Para) (i : Nat) : Option Run :=
  (allRuns d).find? (fun r => r.id = i)

/-- Replace the first run with the given id in a run list by a list of
replacement segments (the Python pattern: insert the segments before the
run, then `run.remove()`). -/
def replaceRunSegs : List Run → Nat → (Run → List Run) → List Run
  | [], _, _ => []
  | r :: rs, i, f => if r.id = i then f r ++ rs else r :: replaceRunSegs rs i f

/-- Replace the first run with the given id in the document. -/
def docReplace : List Para → Nat → (Run → List Run) → List Para
  | [], _, _ => []
  | p :: ps, i, f =>
      if p.runs.any (fun r => r.id = i) then
        { p with runs := replaceRunSegs p.runs i f } :: ps
      else p :: docReplace ps i f

/-- Index of the paragraph containing the first run with the given id
(`_ancestor_paragraph` of the resolved run), together with the index of
that run inside the paragraph. -/
def locateRun : List Para → Nat → Option (Nat × Nat)
  | [], _ => none
  | p :: ps, i =>
      match p.runs.findIdx? (fun r => r.id = i) with
      | some j => some (0, j)
      | none => (locateRun ps i).map (fun q => (q.1 + 1, q.2))

/-- Paragraph index of the run bound to an address. -/
def paraIndexOfRun (d : List Para) (i : Nat) : Option Nat :=
  (locateRun d i).map Prod.fst

/-- Update the element at one position of a list. -/
def updateListAt {α : Type} : List α → Nat → (α → α) → List α
  | [], _, _ => []
  | x :: xs, 0, f => f x :: xs
  | x :: xs, n + 1, f => x :: updateListAt xs n f

/-- Insert an element at one position of a list. -/
def insertListAt {α : Type} (l : List α) (i : Nat) (a : α) : List α :=
  l.take i ++ [a] ++ l.drop i

/-- Merge the paragraph at index `pi` into the paragraph before it: all
children are appended to the predecessor and the emptied paragraph is
removed (the paragraph-merge step of `delete_backward`/`delete_forward`). -/
def mergeWithPrev (d : List Para) (pIdx : Nat) : List Para :=
  match d.get? (pIdx - 1), d.get? pIdx with
  | some pPrev, some pCur =>
      d.take (pIdx - 1) ++ [{ pPrev with runs := pPrev.runs ++ pCur.runs }] ++ d.drop (pIdx + 1)
  | _, _ => d

/-! ## Response payloads -/

/-- The `history()` dictionary embedded in every response. -/
structure HistoryInfo where
  canUndo : Bool
  canRedo : Bool
  undoDepth : Nat
  redoDepth : Nat
deriving DecidableEq, Repr

/-- A selection dictionary (`startNodeId`/`startOffset`/`endNodeId`/`endOffset`). -/
structure Selection where
  startNodeId : Nat
  startOffset : Int
  endNodeId : Nat
  endOffset : Int
deriving DecidableEq, Repr

/-- A caret returned by `delete_backward`/`delete_forward`/`insert_break`. -/
structure Caret where
  node_id : Nat
  offset : Int
deriving DecidableEq, Repr

/-- A single-paragraph render patch (`make_paragraph_patch_by_run_id`). -/
structure Patch where
  kind : String
  anchorName : Nat
  html : String
deriving DecidableEq, Repr

/-- A response payload dictionary.  Success payloads leave `error` empty;
conflict payloads carry `error`, the authoritative `docId`/`version`, and
an `html` render.  Fields that a given endpoint does not emit stay `none`. -/
structure Payload where
  error : Option String := none
  docId : String
  version : Nat
  history : HistoryInfo
  pageIndex : Int
  pageCount : Nat
  html : Option String := none
  patches : Option (List Patch) := none
  selection : Option Selection := none
  didUndo : Option Bool := none
  didRedo : Option Bool := none
deriving DecidableEq, Repr

/-- The conflict dictionary returned by `validate_version`. -/
structure Conflict where
  error : String
  docId : String
  version : Nat
deriving DecidableEq, Repr

/-! ## DocumentState

`doc_id` (a `uuid4().hex` string) is modelled as a counter-indexed name
minted from `nextDocId`; run-bookmark uuids are modelled by the `nextAddr`
counter.  The idempotency cache `_applied_ops` plus its FIFO order list
`_applied_ops_order` are modelled as one association list in insertion
order (keys are unique because `cache_response` is first-write-wins).
Snapshots (`_serialize_doc`, DOCX bytes via the opaque engine) are
modelled as the document value itself. -/

structure DocumentState where
  doc_id : String
  version : Nat
  doc : List Para
  undo_stack : List (List Para)
  redo_stack : List (List Para)
  last_edit_time : ℚ
  last_edit_kind : Option String
  applied_ops : List (String × Payload)
  nextAddr : Nat
  nextDocId : Nat
deriving DecidableEq, Repr

/-- `self.max_history = 50`. -/
def max_history : Nat := 50

/-- `self._max_applied_ops = 5000`. -/
def max_applied_ops : Nat := 5000

/-- `uuid4().hex` for a fresh document identity, modelled by a counter. -/
def mkDocId (n : Nat) : String := "doc" ++ toString n

/-- `DocumentState._op_cache_key` (an f-string joining the four parts with
colons; the endpoints always pass an integer page). -/
def op_cache_key (req_doc_id : String) (req_base_version : Int)
    (client_op_id : String) (page : Int) : String :=
  req_doc_id ++ ":" ++ toString req_base_version ++ ":" ++ client_op_id ++ ":" ++ toString page

/-- `DocumentState.get_cached_response`. -/
def get_cached_response (s : DocumentState) (req_doc_id : String)
    (req_base_version : Int) (client_op_id : String) (page : Int) : Option Payload :=
  (s.applied_ops.find? (fun kv => kv.1 = op_cache_key req_doc_id req_base_version client_op_id page)).map Prod.snd

/-- `DocumentState.cache_response`: first-write-wins, append at the back,
evict from the front past `max_applied_ops`. -/
def cache_response (s : DocumentState) (req_doc_id : String)
    (req_base_version : Int) (client_op_id : String) (page : Int)
    (payload : Payload) : DocumentState :=
  let key := op_cache_key req_doc_id req_base_version client_op_id page
  if (s.applied_ops.find? (fun kv => kv.1 = key)).isSome then s
  else
    let ops := s.applied_ops ++ [(key, payload)]
    { s with applied_ops := if ops.length > max_applied_ops then ops.drop (ops.length - max_applied_ops) else ops }

/-- `DocumentState.validate_version`. -/
def validate_version (s : DocumentState) (req_doc_id : String)
    (req_base_version : Int) : Option Conflict :=
  if req_doc_id ≠ s.doc_id then some ⟨"doc_conflict", s.doc_id, s.version⟩
  else if req_base_version ≠ (s.version : Int) then some ⟨"version_conflict", s.doc_id, s.version⟩
  else none

/-- `DocumentState.bump_version`. -/
def bump_version (s : DocumentState) : DocumentState :=
  { s with version := s.version + 1 }

/-- `DocumentState._serialize_doc` (DOCX bytes through the opaque engine,
modelled as the document value). -/
def serialize_doc (s : DocumentState) : List Para := s.doc

/-- `DocumentState._push_undo_snapshot` as a pure stack operation:
append, then pop the oldest entry when past capacity. -/
def push_undo_snapshot (stack : List (List Para)) (snap : List Para) : List (List Para) :=
  let st := stack ++ [snap]
  if st.length > max_history then st.drop 1 else st

/-- `DocumentState.record_change(kind)`, with the wall clock passed in as
`now` (the code reads `time.monotonic()`).  The coalescing window is the
literal `2.5` of the source. -/
def record_change (s : DocumentState) (now : ℚ) (kind : Option String) : DocumentState :=
  if kind = some "insert" ∧ s.last_edit_kind = some "insert" ∧ now - s.last_edit_time < 5/2 then
    { s with last_edit_time := now }
  else
    { s with undo_stack := push_undo_snapshot s.undo_stack (serialize_doc s),
             redo_stack := [],
             last_edit_time := now,
             last_edit_kind := kind }

/-- `DocumentState.can_undo`. -/
def can_undo (s : DocumentState) : Bool := s.undo_stack.length > 0

/-- `DocumentState.can_redo`. -/
def can_redo (s : DocumentState) : Bool := s.redo_stack.length > 0

/-- `DocumentState.history`. -/
def history (s : DocumentState) : HistoryInfo :=
  ⟨can_undo s, can_redo s, s.undo_stack.length, s.redo_stack.length⟩

/-- `DocumentState.undo`: pop the newest undo snapshot, push the current
state onto redo (bounded), restore. -/
def undo (s : DocumentState) : Bool × DocumentState :=
  match s.undo_stack.getLast? with
  | none => (false, s)
  | some snapshot =>
      let current := serialize_doc s
      let redo1 := s.redo_stack ++ [current]
      let redo2 := if redo1.length > max_history then redo1.drop 1 else redo1
      (true, { s with undo_stack := s.undo_stack.dropLast, redo_stack := redo2, doc := snapshot })

/-- `DocumentState.redo`. -/
def redo (s : DocumentState) : Bool × DocumentState :=
  match s.redo_stack.getLast? with
  | none => (false, s)
  | some snapshot =>
      let current := serialize_doc s
      (true, { s with redo_stack := s.redo_stack.dropLast,
                      undo_stack := push_undo_snapshot s.undo_stack current,
                      doc := snapshot })

/-- `_inject_bookmarks` on the runs of one paragraph: every run is wrapped
in a freshly minted bookmark. -/
def injectRuns : List Run → Nat → List Run × Nat
  | [], f => ([], f)
  | r :: rs, f =>
      let rest := injectRuns rs (f + 1)
      ({ r with id := f } :: rest.1, rest.2)

/-- `DocumentState._inject_bookmarks`: strip any pre-existing bookmarks and
bind every run of the freshly parsed tree to a fresh address. -/
def inject_bookmarks : List Para → Nat → List Para × Nat
  | [], f => ([], f)
  | p :: ps, f =>
      let rs := injectRuns p.runs f
      let rest := inject_bookmarks ps rs.2
      ({ p with runs := rs.1 } :: rest.1, rest.2)

/-- `DocumentState.load_from_stream` on a successfully parsed document
(`parsed` is the engine parse result; the parse-failure path raises and is
outside this model): reset identity, re-inject bookmarks, reset the
coalescing clock.  Note: it does not clear the history stacks. -/
def load_from_stream (s : DocumentState) (parsed : List Para) : DocumentState :=
  let injected := inject_bookmarks parsed s.nextAddr
  { s with doc_id := mkDocId s.nextDocId,
           nextDocId := s.nextDocId + 1,
           version := 0,
           doc := injected.1,
           nextAddr := injected.2,
           last_edit_time := 0,
           last_edit_kind := none }

/-! ## Render stand-ins

The HTML renderer and paginator live in the opaque document engine; the
model only needs them to be deterministic functions of the document. -/

/-- `DocumentState.page_count`: the engine page count, guaranteed
`max(1, c)`; modelled as a single page. -/
def page_count (_d : List Para) : Nat := 1

/-- Clamp a requested page into `[1, total]` (`max(1, min(int(page), total))`). -/
def clampPage (page : Int) (total : Nat) : Int :=
  max 1 (min page (total : Int))

/-- `DocumentState.get_html`: deterministic render stand-in. -/
def get_html (d : List Para) (_page : Int) : String :=
  String.mk (docText d)

/-- `DocumentState.make_paragraph_patch_by_run_id`: render only the
paragraph containing the addressed run, `none` when the address does not
resolve. -/
def make_paragraph_patch_by_run_id (d : List Para) (i : Nat) : Option Patch :=
  match paraIndexOfRun d i with
  | some pIdx =>
      match d.get? pIdx with
      | some p => some ⟨"paragraph", i, String.mk (runsText p.runs)⟩
      | none => none
  | none => none

/-- `DocumentState.make_single_paragraph_patch_if_same_paragraph`. -/
def make_single_paragraph_patch_if_same_paragraph (d : List Para)
    (startId endId : Nat) : Option Patch :=
  match paraIndexOfRun d startId, paraIndexOfRun d endId with
  | some i0, some i1 => if i0 = i1 then make_paragraph_patch_by_run_id d startId else none
  | _, _ => none

/-- The lower clamp `if x < 0: x = 0` applied by the edit operations. -/
def clampLow (x : Int) : Int := if x < 0 then 0 else x

/-- The upper clamp `if x > len: x = len`. -/
def clampHigh (x : Int) (len : Nat) : Int := if x > (len : Int) then (len : Int) else x

/-! ## The split primitive -/

/-- Result of `_split_run_keep_mid_id` — the Python function returns the
triple `(pre_run, mid_run, post_run)`; `fresh` is the address counter
after minting the new bookmark names. -/
structure SplitResult where
  pre : Option Run
  mid : Option Run
  post : Option Run
  fresh : Nat
deriving DecidableEq, Repr

/-- The produced segments in document order (empty segments are not
materialised). -/
def SplitResult.segs (sr : SplitResult) : List Run :=
  sr.pre.toList ++ sr.mid.toList ++ sr.post.toList

/-- `DocumentState._split_run_keep_mid_id(run, bookmark_name, a, b, style)`:
slice the text at `[0:a]`, `[a:b]`, `[b:]`; non-empty pre and post become
clones wrapped in freshly minted bookmarks, the non-empty mid keeps the
original bookmark name and optionally receives the style. -/
def split_run_keep_mid_id (run : Run) (bookmark_name : Nat)
    (start_offset end_offset : Nat) (apply_style : Option StyleUpdate)
    (fresh : Nat) : SplitResult :=
  let text_pre := run.text.take start_offset
  let text_mid := (run.text.take end_offset).drop start_offset
  let text_post := run.text.drop end_offset
  let pre : Option Run := if text_pre.isEmpty then none else some { run with id := fresh, text := text_pre }
  let f1 := if text_pre.isEmpty then fresh else fresh + 1
  let mid : Option Run :=
    if text_mid.isEmpty then none
    else some { run with id := bookmark_name, text := text_mid,
                         font := match apply_style with
                                 | some st => apply_style_to_font run.font st
                                 | none => run.font }
  let post : Option Run := if text_post.isEmpty then none else some { run with id := f1, text := text_post }
  let f2 := if text_post.isEmpty then f1 else f1 + 1
  ⟨pre, mid, post, f2⟩

/-! ## insert_text -/

/-- The three-way segment construction of the split path of
`DocumentState.insert_text`: a fresh-bookmarked pre clone when `text_pre`
is non-empty, the inserted run re-wrapped with the original `node_id`
(optionally styled), a fresh-bookmarked post clone when `text_post` is
non-empty.  Returns the segments and the advanced address counter. -/
def insertTextSegs (run : Run) (node_id : Nat) (offset : Nat)
    (text : List Char) (style : Option StyleUpdate) (fresh : Nat) :
    List Run × Nat :=
  let text_pre := run.text.take offset
  let text_post := run.text.drop offset
  let preL : List Run := if text_pre.isEmpty then [] else [{ run with id := fresh, text := text_pre }]
  let f1 := if text_pre.isEmpty then fresh else fresh + 1
  let inserted : Run :=
    { run with id := node_id, text := text,
               font := match style with
                       | some st => apply_style_to_font run.font st
                       | none => run.font }
  let postL : List Run := if text_post.isEmpty then [] else [{ run with id := f1, text := text_post }]
  let f2 := if text_post.isEmpty then f1 else f1 + 1
  (preL ++ [inserted] ++ postL, f2)

/-- `DocumentState.insert_text(node_id, offset, text, style)`. -/
def insert_text (s : DocumentState) (now : ℚ) (node_id : Nat) (offset : Int)
    (text : List Char) (style : Option StyleUpdate) : DocumentState :=
  let s1 := record_change s now (some "insert")
  match findRun s1.doc node_id with
  | none => s1
  | some run =>
      let text_len := run.text.length
      let off1 : Int := if offset < 0 then 0 else offset
      let off2 : Int := if off1 > (text_len : Int) then (text_len : Int) else off1
      let off : Nat := off2.toNat
      if text.isEmpty then s1
      else if off = 0 ∧ text_len = 0 then
        { s1 with doc := docReplace s1.doc node_id (fun r =>
            [{ r with text := text,
                      font := match style with
                              | some st => apply_style_to_font r.font st
                              | none => r.font }]) }
      else
        { s1 with doc := docReplace s1.doc node_id
                    (fun r => (insertTextSegs r node_id off text style s1.nextAddr).1),
                  nextAddr := (insertTextSegs run node_id off text style s1.nextAddr).2 }

/-! ## delete_range -/

/-- Traversal phase for walking the pre-order run sequence between two
addressed runs. -/
inductive Phase where
  | before
  | inside
  | after
deriving DecidableEq, Repr

/-- Remove all runs strictly between the run bound to `startId` and the
run bound to `endId` in pre-order (the `next_pre_order` loop of
`delete_range`); if the end run never appears after the start run, every
run after the start run is removed, as in the source. -/
def removeRunsGo : Phase → List Run → Nat → Nat → List Run × Phase
  | ph, [], _, _ => ([], ph)
  | Phase.before, r :: rs, sId, eId =>
      let rest := removeRunsGo (if r.id = sId then Phase.inside else Phase.before) rs sId eId
      (r :: rest.1, rest.2)
  | Phase.inside, r :: rs, sId, eId =>
      if r.id = eId then
        let rest := removeRunsGo Phase.after rs sId eId
        (r :: rest.1, rest.2)
      else removeRunsGo Phase.inside rs sId eId
  | Phase.after, r :: rs, _, _ => (r :: rs, Phase.after)

/-- Paragraph-wise version of `removeRunsGo` (empty paragraphs left by the
removal stay in the document, as in the source). -/
def removeRunsBetweenGo : Phase → List Para → Nat → Nat → List Para
  | _, [], _, _ => []
  | ph, p :: ps, sId, eId =>
      let step := removeRunsGo ph p.runs sId eId
      { p with runs := step.1 } :: removeRunsBetweenGo step.2 ps sId eId

def removeRunsBetween (d : List Para) (startId endId : Nat) : List Para :=
  removeRunsBetweenGo Phase.before d startId endId

/-- `DocumentState.delete_range(start_node_id, a, end_node_id, b)`. -/
def delete_range (s : DocumentState) (now : ℚ) (start_node_id : Nat)
    (start_offset : Int) (end_node_id : Nat) (end_offset : Int) : DocumentState :=
  let s1 := record_change s now (some "delete")
  match findRun s1.doc start_node_id, findRun s1.doc end_node_id with
  | some start_run, some end_run =>
      if start_node_id = end_node_id then
        -- same-run: truncate in place; note the partial clamping of the source
        let text_len := start_run.text.length
        let a : Int := clampLow start_offset
        let b : Int := clampHigh end_offset text_len
        if b ≤ a then s1
        else
          { s1 with doc := docReplace s1.doc start_node_id (fun r =>
              [{ r with text := r.text.take a.toNat ++ r.text.drop b.toNat }]) }
      else
        let start_run_len := start_run.text.length
        let end_run_len := end_run.text.length
        let a : Nat := (max 0 (min start_offset (start_run_len : Int))).toNat
        let b : Nat := (max 0 (min end_offset (end_run_len : Int))).toNat
        let doc1 := docReplace s1.doc start_node_id (fun r => [{ r with text := r.text.take a }])
        let doc2 := docReplace doc1 end_node_id (fun r => [{ r with text := r.text.drop b }])
        { s1 with doc := removeRunsBetween doc2 start_node_id end_node_id }
  | _, _ => s1

/-! ## delete_backward / delete_forward -/

/-- `DocumentState.delete_backward(node_id, offset)`; returns the new
caret and the new state. -/
def delete_backward (s : DocumentState) (now : ℚ) (node_id : Nat)
    (offset : Int) : Caret × DocumentState :=
  let s1 := record_change s now (some "delete")
  match findRun s1.doc node_id with
  | none => (⟨node_id, max 0 offset⟩, s1)
  | some run =>
      let off : Nat := (max 0 (min offset (run.text.length : Int))).toNat
      if off > 0 then
        (⟨node_id, (off : Int) - 1⟩,
         { s1 with doc := docReplace s1.doc node_id (fun r =>
             [{ r with text := r.text.take (off - 1) ++ r.text.drop off }]) })
      else
        match locateRun s1.doc node_id with
        | none => (⟨node_id, 0⟩, s1)
        | some loc =>
            let pIdx := loc.1
            let rIdx := loc.2
            if rIdx > 0 then
              -- previous run inside the same paragraph
              match (s1.doc.get? pIdx).bind (fun p => p.runs.get? (rIdx - 1)) with
              | none => (⟨node_id, 0⟩, s1)
              | some prev =>
                  if prev.text.isEmpty then (⟨prev.id, 0⟩, s1)
                  else
                    (⟨prev.id, (prev.text.length : Int) - 1⟩,
                     { s1 with doc := updateListAt s1.doc pIdx (fun p =>
                         { p with runs := updateListAt p.runs (rIdx - 1) (fun r =>
                             { r with text := r.text.dropLast }) }) })
            else if pIdx = 0 then (⟨node_id, 0⟩, s1)
            else
              -- last run of the previous paragraph; an empty previous
              -- paragraph makes _prev_run return None
              match (s1.doc.get? (pIdx - 1)).bind (fun p => p.runs.getLast?) with
              | none => (⟨node_id, 0⟩, s1)
              | some prev =>
                  (⟨prev.id, (prev.text.length : Int)⟩,
                   { s1 with doc := mergeWithPrev s1.doc pIdx })

/-- `DocumentState.delete_forward(node_id, offset)`. -/
def delete_forward (s : DocumentState) (now : ℚ) (node_id : Nat)
    (offset : Int) : Caret × DocumentState :=
  let s1 := record_change s now (some "delete")
  match findRun s1.doc node_id with
  | none => (⟨node_id, max 0 offset⟩, s1)
  | some run =>
      let off : Nat := (max 0 (min offset (run.text.length : Int))).toNat
      if off < run.text.length then
        (⟨node_id, (off : Int)⟩,
         { s1 with doc := docReplace s1.doc node_id (fun r =>
             [{ r with text := r.text.take off ++ r.text.drop (off + 1) }]) })
      else
        match locateRun s1.doc node_id with
        | none => (⟨node_id, (off : Int)⟩, s1)
        | some loc =>
            let pIdx := loc.1
            let rIdx := loc.2
            match (s1.doc.get? pIdx).bind (fun p => p.runs.get? (rIdx + 1)) with
            | some nxt =>
                -- next run inside the same paragraph: drop its first character
                if nxt.text.isEmpty then (⟨node_id, (run.text.length : Int)⟩, s1)
                else
                  (⟨node_id, (run.text.length : Int)⟩,
                   { s1 with doc := updateListAt s1.doc pIdx (fun p =>
                       { p with runs := updateListAt p.runs (rIdx + 1) (fun r =>
                           { r with text := r.text.drop 1 }) }) })
            | none =>
                -- first run of the next paragraph; merge it into this one
                match (s1.doc.get? (pIdx + 1)).bind (fun p => p.runs.head?) with
                | none => (⟨node_id, (off : Int)⟩, s1)
                | some _ =>
                    (⟨node_id, (run.text.length : Int)⟩,
                     { s1 with doc := mergeWithPrev s1.doc (pIdx + 1) })

/-! ## insert_break -/

/-- The pre segment of `insert_break`: a fresh-bookmarked clone of the
text before the caret, materialised only when non-empty. -/
def insertBreakPre (run : Run) (_node_id : Nat) (offset : Nat) (fresh : Nat) :
    List Run × Nat :=
  let text_pre := run.text.take offset
  if text_pre.isEmpty then ([], fresh)
  else ([{ run with id := fresh, text := text_pre }], fresh + 1)

/-- The post segment of `insert_break`: a clone carrying the text from the
caret onward, always materialised (even when empty) and re-wrapped with
the original `node_id`. -/
def insertBreakPost (run : Run) (node_id : Nat) (offset : Nat) : Run :=
  { run with id := node_id, text := run.text.drop offset }

/-- `DocumentState.insert_break(node_id, offset)`: split the run at the
caret, keep the pre part (and any trailing sibling runs) in the original
paragraph, move the post part into a freshly created paragraph inserted
immediately after. -/
def insert_break (s : DocumentState) (now : ℚ) (node_id : Nat)
    (offset : Int) : Caret × DocumentState :=
  let s1 := record_change s now (some "break")
  match findRun s1.doc node_id with
  | none => (⟨node_id, 0⟩, s1)
  | some run =>
      match locateRun s1.doc node_id with
      | none => (⟨node_id, 0⟩, s1)
      | some loc =>
          let pIdx := loc.1
          let rIdx := loc.2
          let off : Nat := (max 0 (min offset (run.text.length : Int))).toNat
          let preStep := insertBreakPre run node_id off s1.nextAddr
          let postR := insertBreakPost run node_id off
          let doc1 := updateListAt s1.doc pIdx (fun p =>
            { p with runs := p.runs.take rIdx ++ preStep.1 ++ p.runs.drop (rIdx + 1) })
          let doc2 := insertListAt doc1 (pIdx + 1) ⟨[postR], ParaFmt.default⟩
          (⟨node_id, 0⟩, { s1 with doc := doc2, nextAddr := preStep.2 })

/-! ## update_style (whole document) -/

/-- `DocumentState.update_style`: restyle every run when any font field is
truthy, every paragraph when any paragraph field is present. -/
def update_style (s : DocumentState) (now : ℚ) (font_name : Option String)
    (font_size : Option Int) (color : Option String) (alignment : Option String)
    (first_line_indent : Option Int) (bold : Option Bool) (italic : Option Bool) :
    DocumentState :=
  let s1 := record_change s now (some "style")
  let style : StyleUpdate := ⟨font_name, font_size, color, alignment, first_line_indent, bold, italic⟩
  let doc1 :=
    if truthyStr font_name || truthyInt font_size || truthyStr color
        || decide (bold ≠ none) || decide (italic ≠ none) then
      s1.doc.map (fun p => { p with runs := p.runs.map (fun r => restyleRun r style) })
    else s1.doc
  let doc2 :=
    if truthyStr alignment || decide (first_line_indent ≠ none) then
      doc1.map (fun p => apply_style_to_paragraph p style)
    else doc1
  { s1 with doc := doc2 }

/-! ## update_range_style -/

/-- Whether paragraph index `i` is collected by the paragraph walk of
`update_range_style` (from the start run to the end run in pre-order;
when the end run lies before the start run the walk runs to the end of
the document and the end paragraph is added separately). -/
def paraSelected (i0 i1 i : Nat) : Bool :=
  if i0 ≤ i1 then decide (i0 ≤ i ∧ i ≤ i1) else (decide (i0 ≤ i) || decide (i = i1))

def applyParaRangeGo : List Para → Nat → Nat → Nat → StyleUpdate → List Para
  | [], _, _, _, _ => []
  | p :: ps, i, i0, i1, st =>
      (if paraSelected i0 i1 i then apply_style_to_paragraph p st else p)
        :: applyParaRangeGo ps (i + 1) i0 i1 st

/-- The paragraph-attribute phase of `update_range_style`: when the style
carries an alignment or an indent, apply it to every paragraph visited
between the two boundary runs. -/
def applyParaPhase (d : List Para) (startId endId : Nat) (style : StyleUpdate) : List Para :=
  if truthyStr style.alignment || decide (style.first_line_indent ≠ none) then
    match paraIndexOfRun d startId, paraIndexOfRun d endId with
    | some i0, some i1 => applyParaRangeGo d 0 i0 i1 style
    | _, _ => d
  else d

/-- Restyle the runs strictly between the start cursor run and the end
cursor run (the `next_pre_order` walk of `update_range_style`): skip up to
and including the run bound to `sId`, restyle until the run bound to
`eId` is reached, leave the rest untouched. -/
def restyleRunsGo : Phase → List Run → Nat → Nat → StyleUpdate → List Run × Phase
  | ph, [], _, _, _ => ([], ph)
  | Phase.before, r :: rs, sId, eId, st =>
      let rest := restyleRunsGo (if r.id = sId then Phase.inside else Phase.before) rs sId eId st
      (r :: rest.1, rest.2)
  | Phase.inside, r :: rs, sId, eId, st =>
      if r.id = eId then
        let rest := restyleRunsGo Phase.after rs sId eId st
        (r :: rest.1, rest.2)
      else
        let rest := restyleRunsGo Phase.inside rs sId eId st
        (restyleRun r st :: rest.1, rest.2)
  | Phase.after, r :: rs, _, _, _ => (r :: rs, Phase.after)

def restyleBetweenGo : Phase → List Para → Nat → Nat → StyleUpdate → List Para
  | _, [], _, _, _ => []
  | ph, p :: ps, sId, eId, st =>
      let step := restyleRunsGo ph p.runs sId eId st
      { p with runs := step.1 } :: restyleBetweenGo step.2 ps sId eId st

def restyleBetween (d : List Para) (sId eId : Nat) (st : StyleUpdate) : List Para :=
  restyleBetweenGo Phase.before d sId eId st

/-- Result of the successful path of `update_range_style`: the selection
dictionary it returns, the mutated document and the advanced address
counter. -/
structure StyleRangeResult where
  sel : Selection
  doc : List Para
  fresh : Nat
deriving DecidableEq, Repr

/-- The body of `DocumentState.update_range_style` after both bookmarks
resolved and `record_change` ran: paragraph-attribute phase, then the
same-run cases (degenerate range, whole-run restyle, mid split) or the
cross-run cases (each boundary independently left alone, restyled in
place, or split; then the in-between walk; then the end cursor
restyle). -/
def update_range_style_core (d : List Para) (fresh : Nat)
    (start_run end_run : Run) (start_node_id : Nat) (start_offset : Int)
    (end_node_id : Nat) (end_offset : Int) (style : StyleUpdate) :
    StyleRangeResult :=
  let d0 := applyParaPhase d start_node_id end_node_id style
  if start_node_id = end_node_id then
    let text_len := start_run.text.length
    let a : Int := clampLow start_offset
    let b : Int := clampHigh end_offset text_len
    if b ≤ a then ⟨⟨start_node_id, a, end_node_id, b⟩, d0, fresh⟩
    else if a = 0 ∧ b = (text_len : Int) then
      ⟨⟨start_node_id, 0, end_node_id, (text_len : Int)⟩,
       docReplace d0 start_node_id (fun r => [restyleRun r style]), fresh⟩
    else
      ⟨⟨start_node_id, 0, end_node_id, max 0 (b - a)⟩,
       docReplace d0 start_node_id (fun r =>
         (split_run_keep_mid_id r start_node_id a.toNat b.toNat (some style) fresh).segs),
       (split_run_keep_mid_id start_run start_node_id a.toNat b.toNat (some style) fresh).fresh⟩
  else
    let start_run_len := start_run.text.length
    let end_run_len := end_run.text.length
    let a : Nat := (max 0 (min start_offset (start_run_len : Int))).toNat
    let b : Nat := (max 0 (min end_offset (end_run_len : Int))).toNat
    -- start boundary
    let startSplit := split_run_keep_mid_id start_run start_node_id a start_run_len (some style) fresh
    let d1 :=
      if a = start_run_len then d0
      else if a = 0 then docReplace d0 start_node_id (fun r => [restyleRun r style])
      else docReplace d0 start_node_id (fun r =>
        (split_run_keep_mid_id r start_node_id a start_run_len (some style) fresh).segs)
    let fresh1 :=
      if a = start_run_len then fresh
      else if a = 0 then fresh
      else startSplit.fresh
    let selection_start_offset : Int :=
      if a = start_run_len then (a : Int) else if a = 0 then (a : Int) else 0
    -- end boundary
    let endSplit := split_run_keep_mid_id end_run end_node_id 0 b (some style) fresh1
    let d2 :=
      if b = 0 then d1
      else if b = end_run_len then docReplace d1 end_node_id (fun r => [restyleRun r style])
      else docReplace d1 end_node_id (fun r =>
        (split_run_keep_mid_id r end_node_id 0 b (some style) fresh1).segs)
    let fresh2 :=
      if b = 0 then fresh1
      else if b = end_run_len then fresh1
      else endSplit.fresh
    let include_end_run := decide (b ≠ 0)
    let selection_end_offset : Int :=
      if b = 0 then (b : Int)
      else if b = end_run_len then (b : Int)
      else match endSplit.mid with
           | some m => (m.text.length : Int)
           | none => (b : Int)
    -- walk strictly between the cursors, then the end cursor itself
    let d3 := restyleBetween d2 start_node_id end_node_id style
    let d4 := if include_end_run then docReplace d3 end_node_id (fun r => [restyleRun r style]) else d3
    ⟨⟨start_node_id, selection_start_offset, end_node_id, selection_end_offset⟩, d4, fresh2⟩

/-- `DocumentState.update_range_style`: `None` when either bookmark fails
to resolve (and then nothing at all happens — in particular no
`record_change`), otherwise `record_change("style")` followed by the
core mutation. -/
def update_range_style (s : DocumentState) (now : ℚ) (start_node_id : Nat)
    (start_offset : Int) (end_node_id : Nat) (end_offset : Int)
    (style : StyleUpdate) : Option Selection × DocumentState :=
  match findRun s.doc start_node_id, findRun s.doc end_node_id with
  | some start_run, some end_run =>
      let s1 := record_change s now (some "style")
      let res := update_range_style_core s1.doc s1.nextAddr start_run end_run
        start_node_id start_offset end_node_id end_offset style
      (some res.sel, { s1 with doc := res.doc, nextAddr := res.fresh })
  | _, _ => (none, s)

/-- `DocumentState.update_node_style`: delegates to `update_range_style`
with the same node at both ends. -/
def update_node_style (s : DocumentState) (now : ℚ) (node_id : Nat)
    (start_offset : Int) (end_offset : Int) (style : StyleUpdate) :
    Option Selection × DocumentState :=
  update_range_style s now node_id start_offset node_id end_offset style

/-! ## Request models (the pydantic classes) -/

/-- `TextInsert` (extends `VersionedRequest`). -/
structure TextInsert where
  doc_id : String
  base_version : Int
  client_op_id : String
  node_id : Nat
  offset : Int
  text : List Char
  style : Option StyleUpdate := none
deriving DecidableEq, Repr

/-- `RangeDelete`. -/
structure RangeDelete where
  doc_id : String
  base_version : Int
  client_op_id : String
  start_node_id : Nat
  start_offset : Int
  end_node_id : Nat
  end_offset : Int
deriving DecidableEq, Repr

/-- `CaretPosition` (used by delete_backward/forward and insert_break). -/
structure CaretPosition where
  doc_id : String
  base_version : Int
  client_op_id : String
  node_id : Nat
  offset : Int
  count : Int := 1
deriving DecidableEq, Repr

/-- `UpdateDocumentRequest`. -/
structure UpdateDocumentRequest where
  doc_id : String
  base_version : Int
  client_op_id : String
  font_name : Option String := none
  font_size : Option Int := none
  color : Option String := none
  alignment : Option String := none
  first_line_indent : Option Int := none
  bold : Option Bool := none
  italic : Option Bool := none
deriving DecidableEq, Repr

/-- `NodeUpdate`. -/
structure NodeUpdate where
  doc_id : String
  base_version : Int
  client_op_id : String
  node_id : Nat
  start_offset : Int
  end_offset : Int
  style : StyleUpdate
deriving DecidableEq, Repr

/-- `RangeUpdate`. -/
structure RangeUpdate where
  doc_id : String
  base_version : Int
  client_op_id : String
  start_node_id : Nat
  start_offset : Int
  end_node_id : Nat
  end_offset : Int
  style : StyleUpdate
deriving DecidableEq, Repr

/-- `HistoryOpRequest`. -/
structure HistoryOpRequest where
  doc_id : String
  base_version : Int
  client_op_id : String
deriving DecidableEq, Repr

/-! ## Endpoints

Each endpoint follows the fixed pipeline of the source verbatim: cached
replay, conflict validation, edit, version bump, response construction,
response caching under the key built from the request identity and the
clamped page. -/

/-- `_conflict_response(conflict, page)` (the JSON body; the 409 status is
not part of the body). -/
def conflict_response (s : DocumentState) (c : Conflict) (page : Int) : Payload :=
  let total := page_count s.doc
  let page1 := clampPage page total
  { error := some c.error, docId := c.docId, version := c.version,
    history := history s, pageIndex := page1, pageCount := total,
    html := some (get_html s.doc page1) }

/-- `POST /api/insert_text`. -/
def insert_text_endpoint (s : DocumentState) (data : TextInsert) (page : Int)
    (now : ℚ) : Payload × DocumentState :=
  match get_cached_response s data.doc_id data.base_version data.client_op_id page with
  | some cached => (cached, s)
  | none =>
    match validate_version s data.doc_id data.base_version with
    | some conflict => (conflict_response s conflict page, s)
    | none =>
      let s2 := bump_version (insert_text s now data.node_id data.offset data.text data.style)
      let total := page_count s2.doc
      let page1 := clampPage page total
      match make_paragraph_patch_by_run_id s2.doc data.node_id with
      | some patch =>
          let payload : Payload :=
            { docId := s2.doc_id, version := s2.version, history := history s2,
              pageIndex := page1, pageCount := total, patches := some [patch] }
          (payload, cache_response s2 data.doc_id data.base_version data.client_op_id page1 payload)
      | none =>
          let payload : Payload :=
            { docId := s2.doc_id, version := s2.version, history := history s2,
              pageIndex := page1, pageCount := total, html := some (get_html s2.doc page1) }
          (payload, cache_response s2 data.doc_id data.base_version data.client_op_id page1 payload)

/-- `POST /api/delete_range`. -/
def delete_range_endpoint (s : DocumentState) (data : RangeDelete) (page : Int)
    (now : ℚ) : Payload × DocumentState :=
  match get_cached_response s data.doc_id data.base_version data.client_op_id page with
  | some cached => (cached, s)
  | none =>
    match validate_version s data.doc_id data.base_version with
    | some conflict => (conflict_response s conflict page, s)
    | none =>
      let s2 := bump_version (delete_range s now data.start_node_id data.start_offset data.end_node_id data.end_offset)
      let total := page_count s2.doc
      let page1 := clampPage page total
      match make_single_paragraph_patch_if_same_paragraph s2.doc data.start_node_id data.end_node_id with
      | some patch =>
          let payload : Payload :=
            { docId := s2.doc_id, version := s2.version, history := history s2,
              pageIndex := page1, pageCount := total, patches := some [patch] }
          (payload, cache_response s2 data.doc_id data.base_version data.client_op_id page1 payload)
      | none =>
          let payload : Payload :=
            { docId := s2.doc_id, version := s2.version, history := history s2,
              pageIndex := page1, pageCount := total, html := some (get_html s2.doc page1) }
          (payload, cache_response s2 data.doc_id data.base_version data.client_op_id page1 payload)

/-- The `for _ in range(count)` loop of the delete_backward endpoint. -/
def repeatDeleteBackward : Nat → ℚ → Caret → DocumentState → Caret × DocumentState
  | 0, _, c, s => (c, s)
  | n + 1, now, c, s =>
      let step := delete_backward s now c.node_id c.offset
      repeatDeleteBackward n now step.1 step.2

/-- The `for _ in range(count)` loop of the delete_forward endpoint. -/
def repeatDeleteForward : Nat → ℚ → Caret → DocumentState → Caret × DocumentState
  | 0, _, c, s => (c, s)
  | n + 1, now, c, s =>
      let step := delete_forward s now c.node_id c.offset
      repeatDeleteForward n now step.1 step.2

/-- `POST /api/delete_backward`. -/
def delete_backward_endpoint (s : DocumentState) (data : CaretPosition)
    (page : Int) (now : ℚ) : Payload × DocumentState :=
  match get_cached_response s data.doc_id data.base_version data.client_op_id page with
  | some cached => (cached, s)
  | none =>
    match validate_version s data.doc_id data.base_version with
    | some conflict => (conflict_response s conflict page, s)
    | none =>
      let cnt : Nat := (max 1 data.count).toNat
      let step := repeatDeleteBackward cnt now ⟨data.node_id, max 0 data.offset⟩ s
      let sel := step.1
      let s2 := bump_version step.2
      let total := page_count s2.doc
      let page1 := clampPage page total
      let selection : Selection := ⟨sel.node_id, sel.offset, sel.node_id, sel.offset⟩
      match make_paragraph_patch_by_run_id s2.doc sel.node_id with
      | some patch =>
          let payload : Payload :=
            { docId := s2.doc_id, version := s2.version, history := history s2,
              pageIndex := page1, pageCount := total, patches := some [patch],
              selection := some selection }
          (payload, cache_response s2 data.doc_id data.base_version data.client_op_id page1 payload)
      | none =>
          let payload : Payload :=
            { docId := s2.doc_id, version := s2.version, history := history s2,
              pageIndex := page1, pageCount := total, html := some (get_html s2.doc page1),
              selection := some selection }
          (payload, cache_response s2 data.doc_id data.base_version data.client_op_id page1 payload)

/-- `POST /api/delete_forward`. -/
def delete_forward_endpoint (s : DocumentState) (data : CaretPosition)
    (page : Int) (now : ℚ) : Payload × DocumentState :=
  match get_cached_response s data.doc_id data.base_version data.client_op_id page with
  | some cached => (cached, s)
  | none =>
    match validate_version s data.doc_id data.base_version with
    | some conflict => (conflict_response s conflict page, s)
    | none =>
      let cnt : Nat := (max 1 data.count).toNat
      let step := repeatDeleteForward cnt now ⟨data.node_id, max 0 data.offset⟩ s
      let sel := step.1
      let s2 := bump_version step.2
      let total := page_count s2.doc
      let page1 := clampPage page total
      let selection : Selection := ⟨sel.node_id, sel.offset, sel.node_id, sel.offset⟩
      match make_paragraph_patch_by_run_id s2.doc sel.node_id with
      | some patch =>
          let payload : Payload :=
            { docId := s2.doc_id, version := s2.version, history := history s2,
              pageIndex := page1, pageCount := total, patches := some [patch],
              selection := some selection }
          (payload, cache_response s2 data.doc_id data.base_version data.client_op_id page1 payload)
      | none =>
          let payload : Payload :=
            { docId := s2.doc_id, version := s2.version, history := history s2,
              pageIndex := page1, pageCount := total, html := some (get_html s2.doc page1),
              selection := some selection }
          (payload, cache_response s2 data.doc_id data.base_version data.client_op_id page1 payload)

/-- `POST /api/insert_break` (always a whole-document render, plus the
returned caret as the selection). -/
def insert_break_endpoint (s : DocumentState) (data : CaretPosition)
    (page : Int) (now : ℚ) : Payload × DocumentState :=
  match get_cached_response s data.doc_id data.base_version data.client_op_id page with
  | some cached => (cached, s)
  | none =>
    match validate_version s data.doc_id data.base_version with
    | some conflict => (conflict_response s conflict page, s)
    | none =>
      let step := insert_break s now data.node_id data.offset
      let sel := step.1
      let s2 := bump_version step.2
      let total := page_count s2.doc
      let page1 := clampPage page total
      let payload : Payload :=
        { docId := s2.doc_id, version := s2.version, history := history s2,
          pageIndex := page1, pageCount := total, html := some (get_html s2.doc page1),
          selection := some ⟨sel.node_id, sel.offset, sel.node_id, sel.offset⟩ }
      (payload, cache_response s2 data.doc_id data.base_version data.client_op_id page1 payload)

/-- `POST /api/update` (whole-document style). -/
def update_document_endpoint (s : DocumentState) (data : UpdateDocumentRequest)
    (page : Int) (now : ℚ) : Payload × DocumentState :=
  match get_cached_response s data.doc_id data.base_version data.client_op_id page with
  | some cached => (cached, s)
  | none =>
    match validate_version s data.doc_id data.base_version with
    | some conflict => (conflict_response s conflict page, s)
    | none =>
      let s2 := bump_version (update_style s now data.font_name data.font_size data.color
        data.alignment data.first_line_indent data.bold data.italic)
      let total := page_count s2.doc
      let page1 := clampPage page total
      let payload : Payload :=
        { docId := s2.doc_id, version := s2.version, history := history s2,
          pageIndex := page1, pageCount := total, html := some (get_html s2.doc page1) }
      (payload, cache_response s2 data.doc_id data.base_version data.client_op_id page1 payload)

/-- `POST /api/update_node`. -/
def update_node_endpoint (s : DocumentState) (data : NodeUpdate) (page : Int)
    (now : ℚ) : Payload × DocumentState :=
  match get_cached_response s data.doc_id data.base_version data.client_op_id page with
  | some cached => (cached, s)
  | none =>
    match validate_version s data.doc_id data.base_version with
    | some conflict => (conflict_response s conflict page, s)
    | none =>
      let step := update_node_style s now data.node_id data.start_offset data.end_offset data.style
      let s2 := bump_version step.2
      let total := page_count s2.doc
      let page1 := clampPage page total
      match make_paragraph_patch_by_run_id s2.doc data.node_id with
      | some patch =>
          let payload : Payload :=
            { docId := s2.doc_id, version := s2.version, history := history s2,
              pageIndex := page1, pageCount := total, patches := some [patch],
              selection := step.1 }
          (payload, cache_response s2 data.doc_id data.base_version data.client_op_id page1 payload)
      | none =>
          let payload : Payload :=
            { docId := s2.doc_id, version := s2.version, history := history s2,
              pageIndex := page1, pageCount := total, html := some (get_html s2.doc page1),
              selection := step.1 }
          (payload, cache_response s2 data.doc_id data.base_version data.client_op_id page1 payload)

/-- `POST /api/update_range`. -/
def update_range_endpoint (s : DocumentState) (data : RangeUpdate) (page : Int)
    (now : ℚ) : Payload × DocumentState :=
  match get_cached_response s data.doc_id data.base_version data.client_op_id page with
  | some cached => (cached, s)
  | none =>
    match validate_version s data.doc_id data.base_version with
    | some conflict => (conflict_response s conflict page, s)
    | none =>
      let step := update_range_style s now data.start_node_id data.start_offset
        data.end_node_id data.end_offset data.style
      let s2 := bump_version step.2
      let total := page_count s2.doc
      let page1 := clampPage page total
      match make_single_paragraph_patch_if_same_paragraph s2.doc data.start_node_id data.end_node_id with
      | some patch =>
          let payload : Payload :=
            { docId := s2.doc_id, version := s2.version, history := history s2,
              pageIndex := page1, pageCount := total, patches := some [patch],
              selection := step.1 }
          (payload, cache_response s2 data.doc_id data.base_version data.client_op_id page1 payload)
      | none =>
          let payload : Payload :=
            { docId := s2.doc_id, version := s2.version, history := history s2,
              pageIndex := page1, pageCount := total, html := some (get_html s2.doc page1),
              selection := step.1 }
          (payload, cache_response s2 data.doc_id data.base_version data.client_op_id page1 payload)

/-- `POST /api/undo` (the version is bumped only when an undo actually
happened). -/
def undo_endpoint (s : DocumentState) (data : HistoryOpRequest) (page : Int) :
    Payload × DocumentState :=
  match get_cached_response s data.doc_id data.base_version data.client_op_id page with
  | some cached => (cached, s)
  | none =>
    match validate_version s data.doc_id data.base_version with
    | some conflict => (conflict_response s conflict page, s)
    | none =>
      let step := undo s
      let s2 := if step.1 then bump_version step.2 else step.2
      let total := page_count s2.doc
      let page1 := clampPage page total
      let payload : Payload :=
        { docId := s2.doc_id, version := s2.version, history := history s2,
          pageIndex := page1, pageCount := total, html := some (get_html s2.doc page1),
          didUndo := some step.1 }
      (payload, cache_response s2 data.doc_id data.base_version data.client_op_id page1 payload)

/-- `POST /api/redo`. -/
def redo_endpoint (s : DocumentState) (data : HistoryOpRequest) (page : Int) :
    Payload × DocumentState :=
  match get_cached_response s data.doc_id data.base_version data.client_op_id page with
  | some cached => (cached, s)
  | none =>
    match validate_version s data.doc_id data.base_version with
    | some conflict => (conflict_response s conflict page, s)
    | none =>
      let step := redo s
      let s2 := if step.1 then bump_version step.2 else step.2
      let total := page_count s2.doc
      let page1 := clampPage page total
      let payload : Payload :=
        { docId := s2.doc_id, version := s2.version, history := history s2,
          pageIndex := page1, pageCount := total, html := some (get_html s2.doc page1),
          didRedo := some step.1 }
      (payload, cache_response s2 data.doc_id data.base_version data.client_op_id page1 payload)

/-- `POST /api/upload` with a successfully parsed file (`parsed` is the
engine parse of the uploaded bytes): snapshot the pre-upload document,
replace the document, push that snapshot as one undo entry and clear
redo; the response is always rendered (and cached) for page 1. -/
def upload_endpoint (s : DocumentState) (parsed : List Para) (doc_id : String)
    (base_version : Int) (client_op_id : String) (page : Int) :
    Payload × DocumentState :=
  match get_cached_response s doc_id base_version client_op_id page with
  | some cached => (cached, s)
  | none =>
    match validate_version s doc_id base_version with
    | some conflict => (conflict_response s conflict page, s)
    | none =>
      let snapshot := serialize_doc s
      let s1 := load_from_stream s parsed
      let s2 := { s1 with undo_stack := push_undo_snapshot s1.undo_stack snapshot,
                          redo_stack := [] }
      let total := page_count s2.doc
      let payload : Payload :=
        { docId := s2.doc_id, version := s2.version, history := history s2,
          pageIndex := 1, pageCount := total, html := some (get_html s2.doc 1) }
      (payload, cache_response s2 doc_id base_version client_op_id 1 payload)

/-! ## The mutating request alphabet -/

/-- One mutating HTTP request, with the query page and (for endpoints
whose edit records history) the monotonic clock reading. -/
inductive Request where
  | insertText (data : TextInsert) (page : Int) (now : ℚ)
  | deleteRange (data : RangeDelete) (page : Int) (now : ℚ)
  | deleteBackward (data : CaretPosition) (page : Int) (now : ℚ)
  | deleteForward (data : CaretPosition) (page : Int) (now : ℚ)
  | insertBreak (data : CaretPosition) (page : Int) (now : ℚ)
  | updateDocument (data : UpdateDocumentRequest) (page : Int) (now : ℚ)
  | updateNode (data : NodeUpdate) (page : Int) (now : ℚ)
  | updateRange (data : RangeUpdate) (page : Int) (now : ℚ)
  | undoRequest (data : HistoryOpRequest) (page : Int)
  | redoRequest (data : HistoryOpRequest) (page : Int)
  | uploadRequest (parsed : List Para) (doc_id : String) (base_version : Int)
      (client_op_id : String) (page : Int)
deriving DecidableEq, Repr

/-- Dispatch a mutating request to its endpoint. -/
def handle (s : DocumentState) : Request → Payload × DocumentState
  | Request.insertText data page now => insert_text_endpoint s data page now
  | Request.deleteRange data page now => delete_range_endpoint s data page now
  | Request.deleteBackward data page now => delete_backward_endpoint s data page now
  | Request.deleteForward data page now => delete_forward_endpoint s data page now
  | Request.insertBreak data page now => insert_break_endpoint s data page now
  | Request.updateDocument data page now => update_document_endpoint s data page now
  | Request.updateNode data page now => update_node_endpoint s data page now
  | Request.updateRange data page now => update_range_endpoint s data page now
  | Request.undoRequest data page => undo_endpoint s data page
  | Request.redoRequest data page => redo_endpoint s data page
  | Request.uploadRequest parsed d b c page => upload_endpoint s parsed d b c page

/-- The request identity used as optimistic-lock token and cache key. -/
def Request.reqDocId : Request → String
  | Request.insertText data _ _ => data.doc_id
  | Request.deleteRange data _ _ => data.doc_id
  | Request.deleteBackward data _ _ => data.doc_id
  | Request.deleteForward data _ _ => data.doc_id
  | Request.insertBreak data _ _ => data.doc_id
  | Request.updateDocument data _ _ => data.doc_id
  | Request.updateNode data _ _ => data.doc_id
  | Request.updateRange data _ _ => data.doc_id
  | Request.undoRequest data _ => data.doc_id
  | Request.redoRequest data _ => data.doc_id
  | Request.uploadRequest _ d _ _ _ => d

def Request.reqBaseVersion : Request → Int
  | Request.insertText data _ _ => data.base_version
  | Request.deleteRange data _ _ => data.base_version
  | Request.deleteBackward data _ _ => data.base_version
  | Request.deleteForward data _ _ => data.base_version
  | Request.insertBreak data _ _ => data.base_version
  | Request.updateDocument data _ _ => data.base_version
  | Request.updateNode data _ _ => data.base_version
  | Request.updateRange data _ _ => data.base_version
  | Request.undoRequest data _ => data.base_version
  | Request.redoRequest data _ => data.base_version
  | Request.uploadRequest _ _ b _ _ => b

def Request.reqClientOpId : Request → String
  | Request.insertText data _ _ => data.client_op_id
  | Request.deleteRange data _ _ => data.client_op_id
  | Request.deleteBackward data _ _ => data.client_op_id
  | Request.deleteForward data _ _ => data.client_op_id
  | Request.insertBreak data _ _ => data.client_op_id
  | Request.updateDocument data _ _ => data.client_op_id
  | Request.updateNode data _ _ => data.client_op_id
  | Request.updateRange data _ _ => data.client_op_id
  | Request.undoRequest data _ => data.client_op_id
  | Request.redoRequest data _ => data.client_op_id
  | Request.uploadRequest _ _ _ c _ => c

def Request.reqPage : Request → Int
  | Request.insertText _ page _ => page
  | Request.deleteRange _ page _ => page
  | Request.deleteBackward _ page _ => page
  | Request.deleteForward _ page _ => page
  | Request.insertBreak _ page _ => page
  | Request.updateDocument _ page _ => page
  | Request.updateNode _ page _ => page
  | Request.updateRange _ page _ => page
  | Request.undoRequest _ page => page
  | Request.redoRequest _ page => page
  | Request.uploadRequest _ _ _ _ page => page

/-- The cache lookup every endpoint performs first (with the raw request
page). -/
def lookupCached (s : DocumentState) (req : Request) : Option Payload :=
  get_cached_response s req.reqDocId req.reqBaseVersion req.reqClientOpId req.reqPage

/-- The eight edit endpoints (everything except undo/redo/upload). -/
def isEditRequest : Request → Bool
  | Request.undoRequest _ _ => false
  | Request.redoRequest _ _ => false
  | Request.uploadRequest _ _ _ _ _ => false
  | _ => true

/-! ## Concrete states and requests used by witnesses and counterexamples -/

def font0 : Font := { name := "Arial", size := 12, bold := false, italic := false, color := ⟨0, 0, 0⟩ }

def mkRun (i : Nat) (t : String) : Run := { id := i, text := t.toList, font := font0 }

/-- A one-paragraph document holding the single run "ab" at address 0. -/
def s0 : DocumentState :=
  { doc_id := "doc0", version := 0,
    doc := [⟨[mkRun 0 "ab"], ParaFmt.default⟩],
    undo_stack := [], redo_stack := [],
    last_edit_time := 0, last_edit_kind := none,
    applied_ops := [], nextAddr := 1, nextDocId := 1 }

/-- The two-paragraph document of the spec scenario: P1 = "Hello",
P2 = "World", each a single addressed run. -/
def sHW : DocumentState :=
  { doc_id := "doc0", version := 0,
    doc := [⟨[mkRun 0 "Hello"], ParaFmt.default⟩, ⟨[mkRun 1 "World"], ParaFmt.default⟩],
    undo_stack := [], redo_stack := [],
    last_edit_time := 0, last_edit_kind := none,
    applied_ops := [], nextAddr := 2, nextDocId := 1 }

/-- One recorded insert edit on `s0` (pushes a single undo snapshot and
sets the coalescing kind and clock). -/
def s8a : DocumentState := insert_text s0 0 0 0 "x".toList none

/-- `s8a` after an undo: the redo stack is non-empty while the last edit
kind is still "insert". -/
def s8b : DocumentState := (undo s8a).2

def rIns : TextInsert :=
  { doc_id := "doc0", base_version := 0, client_op_id := "op1",
    node_id := 0, offset := 1, text := "X".toList, style := none }

def rUndo : HistoryOpRequest := { doc_id := "doc0", base_version := 0, client_op_id := "op9" }

/-- A red-colour style used by examples. -/
def stRed : StyleUpdate := { color := some "#ff0000" }

/-- `s0` after one applied insert_text request (page 1): version 1, one
undo entry, one cached response. -/
def sPre : DocumentState := (insert_text_endpoint s0 rIns 1 0).2

/-- A parse result used as an uploaded document. -/
def parsedEx : List Para := [⟨[mkRun 0 "new"], ParaFmt.default⟩]

/-- A sample run for split witnesses. -/
def runW : Run := mkRun 0 "abcd"

/-! # Theorems

First the frame lemmas every endpoint proof needs: the edit operations
touch only the document, the history and the address counter, while
`bump_version` touches only the version and `cache_response` only the
cache. -/

@[simp] theorem record_change_version (s : DocumentState) (now : ℚ) (k : Option String) :
    (record_change s now k).version = s.version := by
  unfold record_change; split <;> rfl

@[simp] theorem record_change_doc_id (s : DocumentState) (now : ℚ) (k : Option String) :
    (record_change s now k).doc_id = s.doc_id := by
  unfold record_change; split <;> rfl

@[simp] theorem record_change_applied_ops (s : DocumentState) (now : ℚ) (k : Option String) :
    (record_change s now k).applied_ops = s.applied_ops := by
  unfold record_change; split <;> rfl

@[simp] theorem record_change_doc (s : DocumentState) (now : ℚ) (k : Option String) :
    (record_change s now k).doc = s.doc := by
  unfold record_change; split <;> rfl

@[simp] theorem record_change_nextAddr (s : DocumentState) (now : ℚ) (k : Option String) :
    (record_change s now k).nextAddr = s.nextAddr := by
  unfold record_change; split <;> rfl

@[simp] theorem bump_version_version (s : DocumentState) :
    (bump_version s).version = s.version + 1 := rfl

@[simp] theorem bump_version_applied_ops (s : DocumentState) :
    (bump_version s).applied_ops = s.applied_ops := rfl

@[simp] theorem bump_version_doc (s : DocumentState) :
    (bump_version s).doc = s.doc := rfl

@[simp] theorem cache_response_version (s : DocumentState) (d : String) (b : Int)
    (c : String) (p : Int) (pl : Payload) :
    (cache_response s d b c p pl).version = s.version := by
  simp only [cache_response]; split <;> rfl

@[simp] theorem cache_response_doc (s : DocumentState) (d : String) (b : Int)
    (c : String) (p : Int) (pl : Payload) :
    (cache_response s d b c p pl).doc = s.doc := by
  simp only [cache_response]; split <;> rfl

@[simp] theorem cache_response_undo_stack (s : DocumentState) (d : String) (b : Int)
    (c : String) (p : Int) (pl : Payload) :
    (cache_response s d b c p pl).undo_stack = s.undo_stack := by
  simp only [cache_response]; split <;> rfl

@[simp] theorem cache_response_redo_stack (s : DocumentState) (d : String) (b : Int)
    (c : String) (p : Int) (pl : Payload) :
    (cache_response s d b c p pl).redo_stack = s.redo_stack := by
  simp only [cache_response]; split <;> rfl

theorem insert_text_version (s : DocumentState) (now : ℚ) (nid : Nat) (off : Int)
    (t : List Char) (st : Option StyleUpdate) :
    (insert_text s now nid off t st).version = s.version := by
  unfold insert_text
  cases h : findRun (record_change s now (some "insert")).doc nid <;> simp only [h]
  · simp
  · (repeat' split) <;> simp

theorem insert_text_applied_ops (s : DocumentState) (now : ℚ) (nid : Nat) (off : Int)
    (t : List Char) (st : Option StyleUpdate) :
    (insert_text s now nid off t st).applied_ops = s.applied_ops := by
  unfold insert_text
  cases h : findRun (record_change s now (some "insert")).doc nid <;> simp only [h]
  · simp
  · (repeat' split) <;> simp

theorem insert_text_doc_id (s : DocumentState) (now : ℚ) (nid : Nat) (off : Int)
    (t : List Char) (st : Option StyleUpdate) :
    (insert_text s now nid off t st).doc_id = s.doc_id := by
  unfold insert_text
  cases h : findRun (record_change s now (some "insert")).doc nid <;> simp only [h]
  · simp
  · (repeat' split) <;> simp

theorem delete_range_version (s : DocumentState) (now : ℚ) (sId : Nat) (a : Int)
    (eId : Nat) (b : Int) :
    (delete_range s now sId a eId b).version = s.version := by
  unfold delete_range
  cases h1 : findRun (record_change s now (some "delete")).doc sId <;>
    cases h2 : findRun (record_change s now (some "delete")).doc eId <;>
    simp only [h1, h2] <;> (repeat' split) <;> simp

theorem delete_range_applied_ops (s : DocumentState) (now : ℚ) (sId : Nat) (a : Int)
    (eId : Nat) (b : Int) :
    (delete_range s now sId a eId b).applied_ops = s.applied_ops := by
  unfold delete_range
  cases h1 : findRun (record_change s now (some "delete")).doc sId <;>
    cases h2 : findRun (record_change s now (some "delete")).doc eId <;>
    simp only [h1, h2] <;> (repeat' split) <;> simp

theorem delete_range_doc_id (s : DocumentState) (now : ℚ) (sId : Nat) (a : Int)
    (eId : Nat) (b : Int) :
    (delete_range s now sId a eId b).doc_id = s.doc_id := by
  unfold delete_range
  cases h1 : findRun (record_change s now (some "delete")).doc sId <;>
    cases h2 : findRun (record_change s now (some "delete")).doc eId <;>
    simp only [h1, h2] <;> (repeat' split) <;> simp

theorem delete_backward_version (s : DocumentState) (now : ℚ) (nid : Nat) (off : Int) :
    ((delete_backward s now nid off).2).version = s.version := by
  unfold delete_backward
  cases h : findRun (record_change s now (some "delete")).doc nid <;> simp only [h]
  · simp
  · (repeat' split) <;> simp

theorem delete_backward_applied_ops (s : DocumentState) (now : ℚ) (nid : Nat) (off : Int) :
    ((delete_backward s now nid off).2).applied_ops = s.applied_ops := by
  unfold delete_backward
  cases h : findRun (record_change s now (some "delete")).doc nid <;> simp only [h]
  · simp
  · (repeat' split) <;> simp

theorem delete_backward_doc_id (s : DocumentState) (now : ℚ) (nid : Nat) (off : Int) :
    ((delete_backward s now nid off).2).doc_id = s.doc_id := by
  unfold delete_backward
  cases h : findRun (record_change s now (some "delete")).doc nid <;> simp only [h]
  · simp
  · (repeat' split) <;> simp

theorem delete_forward_version (s : DocumentState) (now : ℚ) (nid : Nat) (off : Int) :
    ((delete_forward s now nid off).2).version = s.version := by
  unfold delete_forward
  cases h : findRun (record_change s now (some "delete")).doc nid <;> simp only [h]
  · simp
  · (repeat' split) <;> simp

theorem delete_forward_applied_ops (s : DocumentState) (now : ℚ) (nid : Nat) (off : Int) :
    ((delete_forward s now nid off).2).applied_ops = s.applied_ops := by
  unfold delete_forward
  cases h : findRun (record_change s now (some "delete")).doc nid <;> simp only [h]
  · simp
  · (repeat' split) <;> simp

theorem delete_forward_doc_id (s : DocumentState) (now : ℚ) (nid : Nat) (off : Int) :
    ((delete_forward s now nid off).2).doc_id = s.doc_id := by
  unfold delete_forward
  cases h : findRun (record_change s now (some "delete")).doc nid <;> simp only [h]
  · simp
  · (repeat' split) <;> simp

theorem repeatDeleteBackward_version (n : Nat) (now : ℚ) (c : Caret) (s : DocumentState) :
    ((repeatDeleteBackward n now c s).2).version = s.version := by
  induction n generalizing c s with
  | zero => rfl
  | succ k ih => simp [repeatDeleteBackward, ih, delete_backward_version]

theorem repeatDeleteBackward_applied_ops (n : Nat) (now : ℚ) (c : Caret) (s : DocumentState) :
    ((repeatDeleteBackward n now c s).2).applied_ops = s.applied_ops := by
  induction n generalizing c s with
  | zero => rfl
  | succ k ih => simp [repeatDeleteBackward, ih, delete_backward_applied_ops]

theorem repeatDeleteBackward_doc_id (n : Nat) (now : ℚ) (c : Caret) (s : DocumentState) :
    ((repeatDeleteBackward n now c s).2).doc_id = s.doc_id := by
  induction n generalizing c s with
  | zero => rfl
  | succ k ih => simp [repeatDeleteBackward, ih, delete_backward_doc_id]

theorem repeatDeleteForward_version (n : Nat) (now : ℚ) (c : Caret) (s : DocumentState) :
    ((repeatDeleteForward n now c s).2).version = s.version := by
  induction n generalizing c s with
  | zero => rfl
  | succ k ih => simp [repeatDeleteForward, ih, delete_forward_version]

theorem repeatDeleteForward_applied_ops (n : Nat) (now : ℚ) (c : Caret) (s : DocumentState) :
    ((repeatDeleteForward n now c s).2).applied_ops = s.applied_ops := by
  induction n generalizing c s with
  | zero => rfl
  | succ k ih => simp [repeatDeleteForward, ih, delete_forward_applied_ops]

theorem repeatDeleteForward_doc_id (n : Nat) (now : ℚ) (c : Caret) (s : DocumentState) :
    ((repeatDeleteForward n now c s).2).doc_id = s.doc_id := by
  induction n generalizing c s with
  | zero => rfl
  | succ k ih => simp [repeatDeleteForward, ih, delete_forward_doc_id]

theorem insert_break_version (s : DocumentState) (now : ℚ) (nid : Nat) (off : Int) :
    ((insert_break s now nid off).2).version = s.version := by
  unfold insert_break
  cases h : findRun (record_change s now (some "break")).doc nid <;> simp only [h]
  · simp
  · (repeat' split) <;> simp

theorem insert_break_applied_ops (s : DocumentState) (now : ℚ) (nid : Nat) (off : Int) :
    ((insert_break s now nid off).2).applied_ops = s.applied_ops := by
  unfold insert_break
  cases h : findRun (record_change s now (some "break")).doc nid <;> simp only [h]
  · simp
  · (repeat' split) <;> simp

theorem insert_break_doc_id (s : DocumentState) (now : ℚ) (nid : Nat) (off : Int) :
    ((insert_break s now nid off).2).doc_id = s.doc_id := by
  unfold insert_break
  cases h : findRun (record_change s now (some "break")).doc nid <;> simp only [h]
  · simp
  · (repeat' split) <;> simp

theorem update_style_version (s : DocumentState) (now : ℚ) (fn : Option String)
    (fs : Option Int) (col : Option String) (al : Option String) (fli : Option Int)
    (b i : Option Bool) :
    (update_style s now fn fs col al fli b i).version = s.version := by
  unfold update_style; simp

theorem update_style_applied_ops (s : DocumentState) (now : ℚ) (fn : Option String)
    (fs : Option Int) (col : Option String) (al : Option String) (fli : Option Int)
    (b i : Option Bool) :
    (update_style s now fn fs col al fli b i).applied_ops = s.applied_ops := by
  unfold update_style; simp

theorem update_style_doc_id (s : DocumentState) (now : ℚ) (fn : Option String)
    (fs : Option Int) (col : Option String) (al : Option String) (fli : Option Int)
    (b i : Option Bool) :
    (update_style s now fn fs col al fli b i).doc_id = s.doc_id := by
  unfold update_style; simp

theorem update_range_style_version (s : DocumentState) (now : ℚ) (sId : Nat) (a : Int)
    (eId : Nat) (b : Int) (st : StyleUpdate) :
    ((update_range_style s now sId a eId b st).2).version = s.version := by
  unfold update_range_style
  cases h1 : findRun s.doc sId <;> cases h2 : findRun s.doc eId <;>
    simp only [h1, h2] <;> simp

theorem update_range_style_applied_ops (s : DocumentState) (now : ℚ) (sId : Nat) (a : Int)
    (eId : Nat) (b : Int) (st : StyleUpdate) :
    ((update_range_style s now sId a eId b st).2).applied_ops = s.applied_ops := by
  unfold update_range_style
  cases h1 : findRun s.doc sId <;> cases h2 : findRun s.doc eId <;>
    simp only [h1, h2] <;> simp

theorem update_range_style_doc_id (s : DocumentState) (now : ℚ) (sId : Nat) (a : Int)
    (eId : Nat) (b : Int) (st : StyleUpdate) :
    ((update_range_style s now sId a eId b st).2).doc_id = s.doc_id := by
  unfold update_range_style
  cases h1 : findRun s.doc sId <;> cases h2 : findRun s.doc eId <;>
    simp only [h1, h2] <;> simp

theorem undo_version (s : DocumentState) : ((undo s).2).version = s.version := by
  unfold undo
  cases h : s.undo_stack.getLast? <;> simp [h]

theorem undo_applied_ops (s : DocumentState) : ((undo s).2).applied_ops = s.applied_ops := by
  unfold undo
  cases h : s.undo_stack.getLast? <;> simp [h]

theorem undo_doc_id (s : DocumentState) : ((undo s).2).doc_id = s.doc_id := by
  unfold undo
  cases h : s.undo_stack.getLast? <;> simp [h]

theorem redo_version (s : DocumentState) : ((redo s).2).version = s.version := by
  unfold redo
  cases h : s.redo_stack.getLast? <;> simp [h]

theorem redo_applied_ops (s : DocumentState) : ((redo s).2).applied_ops = s.applied_ops := by
  unfold redo
  cases h : s.redo_stack.getLast? <;> simp [h]

theorem redo_doc_id (s : DocumentState) : ((redo s).2).doc_id = s.doc_id := by
  unfold redo
  cases h : s.redo_stack.getLast? <;> simp [h]

theorem load_from_stream_applied_ops (s : DocumentState) (parsed : List Para) :
    (load_from_stream s parsed).applied_ops = s.applied_ops := rfl

theorem load_from_stream_version (s : DocumentState) (parsed : List Para) :
    (load_from_stream s parsed).version = 0 := rfl

/-- The cache lookup reads only the cache. -/
theorem get_cached_congr (s t : DocumentState) (d : String) (b : Int) (c : String)
    (p : Int) (h : s.applied_ops = t.applied_ops) :
    get_cached_response s d b c p = get_cached_response t d b c p := by
  unfold get_cached_response; rw [h]

/-! ## C10 — update_node_style is update_range_style with equal ends -/

/-- C10: for every document state, clock, node id, pair of offsets and
style, `update_node_style nodeId a b style` produces exactly the same
document mutation and the same returned selection as
`update_range_style nodeId a nodeId b style` — the single-node operation
is definitionally the range operation with equal start and end node. -/
theorem C10_update_node_is_update_range (s : DocumentState) (now : ℚ) (nid : Nat)
    (a b : Int) (st : StyleUpdate) :
    update_node_style s now nid a b st = update_range_style s now nid a nid b st := rfl

/-! ## C9 — backspace at a paragraph boundary merges the paragraphs -/

/-- C9: on the document with paragraphs P1 = "Hello" (run address 0) and
P2 = "World" (run address 1), `delete_backward` at (address 1, offset 0)
merges P2 into P1 — afterwards the document has one paragraph whose
concatenated run text is "HelloWorld" — and returns the caret
(address of the P1 run, offset 5). -/
theorem C9_backspace_merges_paragraphs :
    (delete_backward sHW 0 1 0).1 = ⟨0, 5⟩ ∧
    ((delete_backward sHW 0 1 0).2).doc.length = 1 ∧
    docText ((delete_backward sHW 0 1 0).2).doc = "HelloWorld".toList := by
  decide

/-! ## C8 — record_change and the redo stack -/

/-- C8 counterexample: after one recorded insert followed by an undo, a
second "insert"-kind `record_change` inside the 2.5-unit window takes the
coalescing path and leaves the redo stack non-empty, so `canRedo` stays
true after a new recorded edit — refuting the claim that every
`record_change` call leaves the redo stack empty. -/
theorem C8_counterexample :
    (record_change s8b 1 (some "insert")).redo_stack ≠ [] ∧
    can_redo (record_change s8b 1 (some "insert")) = true := by
  have hcond : (some "insert" : Option String) = some "insert" ∧
      s8b.last_edit_kind = some "insert" ∧ (1 : ℚ) - s8b.last_edit_time < 5/2 := by
    refine ⟨rfl, rfl, ?_⟩
    have ht : s8b.last_edit_time = (0 : ℚ) := rfl
    rw [ht]; norm_num
  have hred : (record_change s8b 1 (some "insert")).redo_stack = s8b.redo_stack := by
    unfold record_change
    rw [if_pos hcond]
  constructor
  · rw [hred]; decide
  · simp only [can_redo, hred]; decide

/-- C8 (amended): `record_change` clears the redo stack except on the
insert-coalescing path (an "insert" change following an "insert" change
within the 2.5-time-unit window), which leaves the redo stack untouched;
therefore after a coalesced insert that follows an undo, redo may remain
available. -/
theorem C8_record_change_redo (s : DocumentState) (now : ℚ) (kind : Option String) :
    (record_change s now kind).redo_stack =
      if kind = some "insert" ∧ s.last_edit_kind = some "insert" ∧ now - s.last_edit_time < 5/2
      then s.redo_stack else [] := by
  unfold record_change
  split <;> rfl

/-- Membership in the materialisation of an optional segment. -/
theorem mem_ite_none_toList {α : Type} {c : Prop} [Decidable c] {x seg : α}
    (h : seg ∈ (if c then none else some x).toList) : ¬c ∧ seg = x := by
  split at h <;> simp_all

/-- A list is non-empty in the `isEmpty` sense iff it is not `[]`. -/
theorem not_isEmpty_iff {α : Type} {l : List α} : ¬l.isEmpty = true ↔ l ≠ [] := by
  simp [List.isEmpty_iff]

/-! ## C6 — zero-length segments -/

/-- C6 counterexample: `insert_break` at the end of the run "ab" (offset
2) materialises the post segment with empty text — and binds it to the
original address 0 — refuting the claim that no split operation ever
materialises a zero-length run. -/
theorem C6_counterexample :
    ∃ r ∈ allRuns ((insert_break s0 0 0 2).2).doc, r.text = [] ∧ r.id = 0 := by
  decide

/-- C6 (amended): the split primitive, the insert-text split, and the
pre segment of insert-break never materialise a zero-length run — but
the post segment of insert-break is always materialised and bound to the
original address, and it is empty exactly when the caret sits at or past
the end of the run text. -/
theorem C6_no_empty_segments :
    (∀ (run : Run) (nm a b : Nat) (sty : Option StyleUpdate) (f : Nat),
       ∀ seg ∈ (split_run_keep_mid_id run nm a b sty f).segs, seg.text ≠ []) ∧
    (∀ (run : Run) (nid off : Nat) (t : List Char) (sty : Option StyleUpdate) (f : Nat),
       t ≠ [] → ∀ seg ∈ (insertTextSegs run nid off t sty f).1, seg.text ≠ []) ∧
    (∀ (run : Run) (nid off f : Nat),
       ∀ seg ∈ (insertBreakPre run nid off f).1, seg.text ≠ []) ∧
    (∀ (run : Run) (nid off : Nat),
       (insertBreakPost run nid off).text = [] ↔ run.text.length ≤ off) := by
  refine ⟨?_, ?_, ?_, ?_⟩
  · intro run nm a b sty f seg hmem
    unfold split_run_keep_mid_id SplitResult.segs at hmem
    simp only at hmem
    rcases List.mem_append.mp hmem with hm | hm
    · rcases List.mem_append.mp hm with hm2 | hm2
      · obtain ⟨hc, hx⟩ := mem_ite_none_toList hm2
        subst hx; simpa [not_isEmpty_iff] using hc
      · obtain ⟨hc, hx⟩ := mem_ite_none_toList hm2
        subst hx; simpa [not_isEmpty_iff] using hc
    · obtain ⟨hc, hx⟩ := mem_ite_none_toList hm
      subst hx; simpa [not_isEmpty_iff] using hc
  · intro run nid off t sty f ht seg hmem
    unfold insertTextSegs at hmem
    simp only at hmem
    rcases List.mem_append.mp hmem with hm | hm
    · rcases List.mem_append.mp hm with hm2 | hm2
      · split at hm2 <;> simp_all [not_isEmpty_iff]
      · simp only [List.mem_singleton] at hm2
        subst hm2; simpa using ht
    · split at hm <;> simp_all [not_isEmpty_iff]
  · intro run nid off f seg hmem
    unfold insertBreakPre at hmem
    simp only at hmem
    split at hmem <;> simp_all [not_isEmpty_iff]
  · intro run nid off
    unfold insertBreakPost
    simp [List.drop_eq_nil_iff]

/-! ## C5 — address carry-over on splits -/

/-- C5: for every split-producing operation, exactly one produced segment
is bound to the original stable address and every other produced segment
is bound to a freshly minted address (an address at or above the mint
counter, which — by the last conjunct — cannot occur in any document all
of whose addresses lie below the counter).  The three split constructions
are: the range-style split (`split_run_keep_mid_id`, provided the mid
segment is non-empty, as at every call site), the insert-text split, and
the insert-break split. -/
theorem C5_address_carry_over :
    (∀ (run : Run) (nm a b : Nat) (sty : Option StyleUpdate) (f : Nat),
       nm < f → (run.text.take b).drop a ≠ [] →
       (((split_run_keep_mid_id run nm a b sty f).segs.map Run.id).count nm = 1 ∧
        ∀ seg ∈ (split_run_keep_mid_id run nm a b sty f).segs,
          seg.id = nm ∨ (f ≤ seg.id ∧ seg.id < (split_run_keep_mid_id run nm a b sty f).fresh))) ∧
    (∀ (run : Run) (nid off : Nat) (t : List Char) (sty : Option StyleUpdate) (f : Nat),
       nid < f →
       ((((insertTextSegs run nid off t sty f).1).map Run.id).count nid = 1 ∧
        ∀ seg ∈ (insertTextSegs run nid off t sty f).1,
          seg.id = nid ∨ (f ≤ seg.id ∧ seg.id < (insertTextSegs run nid off t sty f).2))) ∧
    (∀ (run : Run) (nid off f : Nat),
       nid < f →
       ((((insertBreakPre run nid off f).1 ++ [insertBreakPost run nid off]).map Run.id).count nid = 1 ∧
        ∀ seg ∈ (insertBreakPre run nid off f).1 ++ [insertBreakPost run nid off],
          seg.id = nid ∨ (f ≤ seg.id ∧ seg.id < (insertBreakPre run nid off f).2))) ∧
    (∀ (d : List Para) (n i : Nat), (∀ j ∈ docIds d, j < n) → n ≤ i → i ∉ docIds d) := by
  refine ⟨?_, ?_, ?_, ?_⟩
  · intro run nm a b sty f hnm hmid
    have hmid2 : ¬((run.text.take b).drop a).isEmpty = true := not_isEmpty_iff.mpr hmid
    unfold split_run_keep_mid_id SplitResult.segs
    simp only
    constructor
    · split_ifs <;>
        simp_all [List.count_cons, List.count_append, show ¬f = nm by omega,
          show ¬(f + 1) = nm by omega]
    · intro seg hmem
      rcases List.mem_append.mp hmem with hm | hm
      · rcases List.mem_append.mp hm with hm2 | hm2
        · obtain ⟨hc, hx⟩ := mem_ite_none_toList hm2
          subst hx
          right
          constructor
          · exact Nat.le_refl f
          · simp only
            split_ifs <;> simp_all <;> omega
        · obtain ⟨hc, hx⟩ := mem_ite_none_toList hm2
          subst hx; left; rfl
      · obtain ⟨hc, hx⟩ := mem_ite_none_toList hm
        subst hx
        right
        simp only
        split_ifs <;> simp_all <;> omega
  · intro run nid off t sty f hnid
    unfold insertTextSegs
    simp only
    constructor
    · split_ifs <;>
        simp_all [List.count_cons, List.count_append, show ¬f = nid by omega,
          show ¬(f + 1) = nid by omega]
    · intro seg hmem
      rcases List.mem_append.mp hmem with hm | hm
      · rcases List.mem_append.mp hm with hm2 | hm2
        · split at hm2 <;> simp_all
          subst hm2
          right
          split_ifs <;> simp_all <;> omega
        · simp only [List.mem_singleton] at hm2
          subst hm2; left; rfl
      · split at hm <;> simp_all
        subst hm
        right
        split_ifs <;> simp_all <;> omega
  · intro run nid off f hnid
    constructor
    · unfold insertBreakPre insertBreakPost
      simp only
      split_ifs <;>
        simp_all [List.count_cons, List.count_append, show ¬f = nid by omega]
    · intro seg hmem
      rcases List.mem_append.mp hmem with hm | hm
      · unfold insertBreakPre at hm
        simp only at hm
        split at hm <;> simp_all
        subst hm
        right
        unfold insertBreakPre
        simp only
        split_ifs <;> simp_all <;> omega
      · simp only [List.mem_singleton] at hm
        subst hm; left; rfl
  · intro d n i hlt hle hmem
    exact absurd (hlt i hmem) (by omega)

/-- Witness for C5: the split of "abcd" (address 0) at offsets (1, 3) with
mint counter 5 yields exactly one segment carrying address 0, and every
other segment carries a counter-fresh address. -/
theorem C5_address_carry_over_witness :
    ((split_run_keep_mid_id runW 0 1 3 none 5).segs.map Run.id).count 0 = 1 ∧
    ∀ seg ∈ (split_run_keep_mid_id runW 0 1 3 none 5).segs,
      seg.id = 0 ∨ (5 ≤ seg.id ∧ seg.id < (split_run_keep_mid_id runW 0 1 3 none 5).fresh) :=
  C5_address_carry_over.1 runW 0 1 3 none 5 (by decide) (by decide)

/-- Witness for C6 (amended): the pre segment produced by splitting "abcd"
at (1, 3) has non-empty text. -/
theorem C6_no_empty_segments_witness :
    ({ id := 5, text := "a".toList, font := font0 } : Run).text ≠ [] :=
  C6_no_empty_segments.1 runW 0 1 3 none 5 { id := 5, text := "a".toList, font := font0 } (by decide)

/-! ## C4 — split text-preservation and style-only text invariance -/

theorem take_drop_concat {α : Type} (l : List α) (a b : Nat) (h : a ≤ b) :
    l.take a ++ ((l.take b).drop a ++ l.drop b) = l := by
  have h1 : (l.take b).take a = l.take a := by
    rw [List.take_take, Nat.min_eq_left h]
  rw [← h1, ← List.append_assoc, List.take_append_drop, List.take_append_drop]

theorem runsText_nil : runsText [] = [] := rfl

theorem runsText_cons (r : Run) (l : List Run) :
    runsText (r :: l) = r.text ++ runsText l := by
  simp [runsText]

theorem runsText_append (l1 l2 : List Run) :
    runsText (l1 ++ l2) = runsText l1 ++ runsText l2 := by
  simp [runsText]

theorem docText_nil : docText [] = [] := rfl

theorem docText_cons (p : Para) (ps : List Para) :
    docText (p :: ps) = runsText p.runs ++ docText ps := by
  simp [docText]

/-- An optional segment contributes exactly its slice to the document
text: an omitted segment was empty. -/
theorem runsText_segOpt (l : List Char) (x : Run) (hx : x.text = l) :
    runsText (if l.isEmpty = true then none else some x).toList = l := by
  split <;> simp_all [runsText, List.isEmpty_iff]

/-- Splitting at `(a, b)` with `a ≤ b` produces segments whose
concatenation is exactly the original text. -/
theorem runsText_split_segs (r : Run) (nm a b : Nat) (sty : Option StyleUpdate)
    (f : Nat) (h : a ≤ b) :
    runsText (split_run_keep_mid_id r nm a b sty f).segs = r.text := by
  have H := take_drop_concat r.text a b h
  unfold split_run_keep_mid_id SplitResult.segs
  simp only
  rw [runsText_append, runsText_append,
      runsText_segOpt (r.text.take a) _ rfl,
      runsText_segOpt ((r.text.take b).drop a) _ rfl,
      runsText_segOpt (r.text.drop b) _ rfl,
      List.append_assoc]
  exact H

theorem runsText_replaceRunSegs (l : List Run) (i : Nat) (f : Run → List Run)
    (h : ∀ r, runsText (f r) = r.text) :
    runsText (replaceRunSegs l i f) = runsText l := by
  induction l with
  | nil => rfl
  | cons r rs ih =>
      by_cases hid : r.id = i <;>
        simp [replaceRunSegs, hid, runsText_append, runsText_cons, ih, h r]

/-- Replacing a run by text-preserving segments preserves the document
text. -/
theorem docText_docReplace (d : List Para) (i : Nat) (f : Run → List Run)
    (h : ∀ r, runsText (f r) = r.text) :
    docText (docReplace d i f) = docText d := by
  induction d with
  | nil => rfl
  | cons p ps ih =>
      by_cases hp : p.runs.any (fun r => r.id = i) <;>
        simp [docReplace, hp, docText_cons, runsText_replaceRunSegs _ _ _ h, ih]

theorem docText_docReplace_restyle (d : List Para) (i : Nat) (st : StyleUpdate) :
    docText (docReplace d i (fun r => [restyleRun r st])) = docText d :=
  docText_docReplace d i _ (fun r => by simp [runsText, restyleRun])

theorem docText_docReplace_split (d : List Para) (i nm : Nat) (a b : Nat)
    (sty : Option StyleUpdate) (fr : Nat) (h : a ≤ b) :
    docText (docReplace d i (fun r => (split_run_keep_mid_id r nm a b sty fr).segs)) = docText d :=
  docText_docReplace d i _ (fun r => runsText_split_segs r nm a b sty fr h)

/-- The shape of the start-boundary split of `update_range_style`: the
start offset is clamped into the run length. -/
theorem docText_docReplace_split_clamped (d : List Para) (i nm : Nat) (so : Int)
    (len : Nat) (sty : Option StyleUpdate) (fr : Nat) :
    docText (docReplace d i (fun r =>
      (split_run_keep_mid_id r nm ((max 0 (min so (len : Int))).toNat) len sty fr).segs)) = docText d :=
  docText_docReplace_split d i nm _ len sty fr (by omega)

/-- The shape of the end-boundary split of `update_range_style`. -/
theorem docText_docReplace_split_zero (d : List Para) (i nm : Nat) (b : Nat)
    (sty : Option StyleUpdate) (fr : Nat) :
    docText (docReplace d i (fun r => (split_run_keep_mid_id r nm 0 b sty fr).segs)) = docText d :=
  docText_docReplace_split d i nm 0 b sty fr (Nat.zero_le b)

/-- The shape of the same-run split of `update_range_style` and its
non-degeneracy guard. -/
theorem docText_docReplace_split_toNat (d : List Para) (i nm : Nat) (a b : Int)
    (sty : Option StyleUpdate) (fr : Nat) (h : ¬b ≤ a) :
    docText (docReplace d i (fun r =>
      (split_run_keep_mid_id r nm a.toNat b.toNat sty fr).segs)) = docText d :=
  docText_docReplace_split d i nm a.toNat b.toNat sty fr (by omega)

theorem docText_applyParaRangeGo (d : List Para) (i i0 i1 : Nat) (st : StyleUpdate) :
    docText (applyParaRangeGo d i i0 i1 st) = docText d := by
  induction d generalizing i with
  | nil => rfl
  | cons p ps ih =>
      by_cases h : paraSelected i0 i1 i <;>
        simp [applyParaRangeGo, h, docText_cons, ih, apply_style_to_paragraph]

theorem docText_applyParaPhase (d : List Para) (sId eId : Nat) (st : StyleUpdate) :
    docText (applyParaPhase d sId eId st) = docText d := by
  unfold applyParaPhase
  split_ifs with h
  · cases paraIndexOfRun d sId <;> cases paraIndexOfRun d eId <;>
      simp [docText_applyParaRangeGo]
  · rfl

theorem runsText_restyleRunsGo (ph : Phase) (l : List Run) (sId eId : Nat)
    (st : StyleUpdate) :
    runsText (restyleRunsGo ph l sId eId st).1 = runsText l := by
  induction l generalizing ph with
  | nil => cases ph <;> rfl
  | cons r rs ih =>
      cases ph with
      | before => simp [restyleRunsGo, runsText_cons, ih]
      | inside =>
          by_cases h : r.id = eId <;>
            simp [restyleRunsGo, h, runsText_cons, ih, restyleRun]
      | after => rfl

theorem docText_restyleBetweenGo (ph : Phase) (d : List Para) (sId eId : Nat)
    (st : StyleUpdate) :
    docText (restyleBetweenGo ph d sId eId st) = docText d := by
  induction d generalizing ph with
  | nil => rfl
  | cons p ps ih =>
      simp [restyleBetweenGo, docText_cons, runsText_restyleRunsGo, ih]

theorem docText_restyleBetween (d : List Para) (sId eId : Nat) (st : StyleUpdate) :
    docText (restyleBetween d sId eId st) = docText d :=
  docText_restyleBetweenGo Phase.before d sId eId st

set_option maxHeartbeats 1000000 in
/-- The core of `update_range_style` never changes the document text. -/
theorem docText_update_range_style_core (d : List Para) (fresh : Nat)
    (start_run end_run : Run) (sId : Nat) (so : Int) (eId : Nat) (eo : Int)
    (st : StyleUpdate) :
    docText (update_range_style_core d fresh start_run end_run sId so eId eo st).doc
      = docText d := by
  unfold update_range_style_core
  dsimp only
  by_cases hEq : sId = eId
  · simp only [if_pos hEq]
    split_ifs with hba hwh
    · exact docText_applyParaPhase d sId eId st
    · dsimp only
      rw [docText_docReplace_restyle, docText_applyParaPhase]
    · dsimp only
      rw [docText_docReplace_split_toNat _ _ _ _ _ _ _ hba, docText_applyParaPhase]
  · simp only [if_neg hEq]
    split_ifs <;> (try dsimp only) <;>
      simp only [docText_docReplace_restyle, docText_restyleBetween,
        docText_docReplace_split_clamped, docText_docReplace_split_zero,
        docText_applyParaPhase]

/-- C4: splitting a run at clamped offsets `a ≤ b ≤ |T|` produces
segments whose texts concatenate to exactly `T`; consequently a
style-only range update (`update_range_style`, and with it
`update_node_style`) leaves the concatenated text of the document
unchanged. -/
theorem C4_split_text_preservation :
    (∀ (run : Run) (nm a b : Nat) (sty : Option StyleUpdate) (f : Nat),
       a ≤ b → b ≤ run.text.length →
       runsText (split_run_keep_mid_id run nm a b sty f).segs = run.text) ∧
    (∀ (s : DocumentState) (now : ℚ) (sId : Nat) (so : Int) (eId : Nat) (eo : Int)
       (st : StyleUpdate),
       docText ((update_range_style s now sId so eId eo st).2).doc = docText s.doc) ∧
    (∀ (s : DocumentState) (now : ℚ) (nid : Nat) (so eo : Int) (st : StyleUpdate),
       docText ((update_node_style s now nid so eo st).2).doc = docText s.doc) := by
  have hrange : ∀ (s : DocumentState) (now : ℚ) (sId : Nat) (so : Int) (eId : Nat)
      (eo : Int) (st : StyleUpdate),
      docText ((update_range_style s now sId so eId eo st).2).doc = docText s.doc := by
    intro s now sId so eId eo st
    unfold update_range_style
    cases h1 : findRun s.doc sId <;> cases h2 : findRun s.doc eId <;> simp only [h1, h2]
    all_goals
      first
        | rfl
        | rw [docText_update_range_style_core, record_change_doc]
  refine ⟨?_, hrange, ?_⟩
  · intro run nm a b sty f hab _
    exact runsText_split_segs run nm a b sty f hab
  · intro s now nid so eo st
    exact hrange s now nid so nid eo st

/-- Witness for C4: splitting "abcd" at (1, 3) concatenates back to
exactly "abcd". -/
theorem C4_split_text_preservation_witness :
    runsText (split_run_keep_mid_id runW 0 1 3 none 5).segs = runW.text :=
  C4_split_text_preservation.1 runW 0 1 3 none 5 (by decide) (by decide)

/-! ## Endpoint version lemmas (shared by the C2 and C3 developments) -/

theorem insert_text_endpoint_version (s : DocumentState) (data : TextInsert)
    (page : Int) (now : ℚ)
    (hc : get_cached_response s data.doc_id data.base_version data.client_op_id page = none)
    (hv : validate_version s data.doc_id data.base_version = none) :
    ((insert_text_endpoint s data page now).2).version = s.version + 1 := by
  unfold insert_text_endpoint
  simp only [hc, hv]
  cases hp : make_paragraph_patch_by_run_id
      (bump_version (insert_text s now data.node_id data.offset data.text data.style)).doc
      data.node_id <;>
    simp [hp, cache_response_version, bump_version_version, insert_text_version]

theorem delete_range_endpoint_version (s : DocumentState) (data : RangeDelete)
    (page : Int) (now : ℚ)
    (hc : get_cached_response s data.doc_id data.base_version data.client_op_id page = none)
    (hv : validate_version s data.doc_id data.base_version = none) :
    ((delete_range_endpoint s data page now).2).version = s.version + 1 := by
  unfold delete_range_endpoint
  simp only [hc, hv]
  cases hp : make_single_paragraph_patch_if_same_paragraph
      (bump_version (delete_range s now data.start_node_id data.start_offset
        data.end_node_id data.end_offset)).doc data.start_node_id data.end_node_id <;>
    simp [hp, cache_response_version, bump_version_version, delete_range_version]

theorem delete_backward_endpoint_version (s : DocumentState) (data : CaretPosition)
    (page : Int) (now : ℚ)
    (hc : get_cached_response s data.doc_id data.base_version data.client_op_id page = none)
    (hv : validate_version s data.doc_id data.base_version = none) :
    ((delete_backward_endpoint s data page now).2).version = s.version + 1 := by
  unfold delete_backward_endpoint
  simp only [hc, hv]
  cases hp : make_paragraph_patch_by_run_id
      (bump_version (repeatDeleteBackward (max 1 data.count).toNat now
        ⟨data.node_id, max 0 data.offset⟩ s).2).doc
      (repeatDeleteBackward (max 1 data.count).toNat now
        ⟨data.node_id, max 0 data.offset⟩ s).1.node_id <;>
    simp [hp, cache_response_version, bump_version_version, repeatDeleteBackward_version]

theorem delete_forward_endpoint_version (s : DocumentState) (data : CaretPosition)
    (page : Int) (now : ℚ)
    (hc : get_cached_response s data.doc_id data.base_version data.client_op_id page = none)
    (hv : validate_version s data.doc_id data.base_version = none) :
    ((delete_forward_endpoint s data page now).2).version = s.version + 1 := by
  unfold delete_forward_endpoint
  simp only [hc, hv]
  cases hp : make_paragraph_patch_by_run_id
      (bump_version (repeatDeleteForward (max 1 data.count).toNat now
        ⟨data.node_id, max 0 data.offset⟩ s).2).doc
      (repeatDeleteForward (max 1 data.count).toNat now
        ⟨data.node_id, max 0 data.offset⟩ s).1.node_id <;>
    simp [hp, cache_response_version, bump_version_version, repeatDeleteForward_version]

theorem insert_break_endpoint_version (s : DocumentState) (data : CaretPosition)
    (page : Int) (now : ℚ)
    (hc : get_cached_response s data.doc_id data.base_version data.client_op_id page = none)
    (hv : validate_version s data.doc_id data.base_version = none) :
    ((insert_break_endpoint s data page now).2).version = s.version + 1 := by
  unfold insert_break_endpoint
  simp only [hc, hv]
  simp [cache_response_version, bump_version_version, insert_break_version]

theorem update_document_endpoint_version (s : DocumentState)
    (data : UpdateDocumentRequest) (page : Int) (now : ℚ)
    (hc : get_cached_response s data.doc_id data.base_version data.client_op_id page = none)
    (hv : validate_version s data.doc_id data.base_version = none) :
    ((update_document_endpoint s data page now).2).version = s.version + 1 := by
  unfold update_document_endpoint
  simp only [hc, hv]
  simp [cache_response_version, bump_version_version, update_style_version]

theorem update_node_endpoint_version (s : DocumentState) (data : NodeUpdate)
    (page : Int) (now : ℚ)
    (hc : get_cached_response s data.doc_id data.base_version data.client_op_id page = none)
    (hv : validate_version s data.doc_id data.base_version = none) :
    ((update_node_endpoint s data page now).2).version = s.version + 1 := by
  unfold update_node_endpoint
  simp only [hc, hv]
  cases hp : make_paragraph_patch_by_run_id
      (bump_version (update_node_style s now data.node_id data.start_offset
        data.end_offset data.style).2).doc data.node_id <;>
    simp [hp, cache_response_version, bump_version_version, update_node_style,
      update_range_style_version]

theorem update_range_endpoint_version (s : DocumentState) (data : RangeUpdate)
    (page : Int) (now : ℚ)
    (hc : get_cached_response s data.doc_id data.base_version data.client_op_id page = none)
    (hv : validate_version s data.doc_id data.base_version = none) :
    ((update_range_endpoint s data page now).2).version = s.version + 1 := by
  unfold update_range_endpoint
  simp only [hc, hv]
  cases hp : make_single_paragraph_patch_if_same_paragraph
      (bump_version (update_range_style s now data.start_node_id data.start_offset
        data.end_node_id data.end_offset data.style).2).doc
      data.start_node_id data.end_node_id <;>
    simp [hp, cache_response_version, bump_version_version, update_range_style_version]

/-- An undo request whose undo stack is non-empty bumps the version. -/
theorem undo_endpoint_version_nonempty (s : DocumentState) (data : HistoryOpRequest)
    (page : Int)
    (hc : get_cached_response s data.doc_id data.base_version data.client_op_id page = none)
    (hv : validate_version s data.doc_id data.base_version = none)
    (hne : s.undo_stack ≠ []) :
    ((undo_endpoint s data page).2).version = s.version + 1 := by
  unfold undo_endpoint
  simp only [hc, hv]
  have hfst : (undo s).1 = true := by
    unfold undo
    cases h : s.undo_stack.getLast? with
    | none => exact absurd (List.getLast?_eq_none_iff.mp h) hne
    | some snap => simp
  simp [hfst, cache_response_version, bump_version_version, undo_version]

/-- An undo request on an empty undo stack is accepted but leaves the
version (indeed the whole history/document state) unchanged. -/
theorem undo_endpoint_version_empty (s : DocumentState) (data : HistoryOpRequest)
    (page : Int)
    (hc : get_cached_response s data.doc_id data.base_version data.client_op_id page = none)
    (hv : validate_version s data.doc_id data.base_version = none)
    (he : s.undo_stack = []) :
    ((undo_endpoint s data page).2).version = s.version := by
  unfold undo_endpoint
  simp only [hc, hv]
  have hfst : (undo s).1 = false := by
    unfold undo
    simp [he]
  simp [hfst, cache_response_version, undo_version]

theorem redo_endpoint_version_nonempty (s : DocumentState) (data : HistoryOpRequest)
    (page : Int)
    (hc : get_cached_response s data.doc_id data.base_version data.client_op_id page = none)
    (hv : validate_version s data.doc_id data.base_version = none)
    (hne : s.redo_stack ≠ []) :
    ((redo_endpoint s data page).2).version = s.version + 1 := by
  unfold redo_endpoint
  simp only [hc, hv]
  have hfst : (redo s).1 = true := by
    unfold redo
    cases h : s.redo_stack.getLast? with
    | none => exact absurd (List.getLast?_eq_none_iff.mp h) hne
    | some snap => simp
  simp [hfst, cache_response_version, bump_version_version, redo_version]

theorem redo_endpoint_version_empty (s : DocumentState) (data : HistoryOpRequest)
    (page : Int)
    (hc : get_cached_response s data.doc_id data.base_version data.client_op_id page = none)
    (hv : validate_version s data.doc_id data.base_version = none)
    (he : s.redo_stack = []) :
    ((redo_endpoint s data page).2).version = s.version := by
  unfold redo_endpoint
  simp only [hc, hv]
  have hfst : (redo s).1 = false := by
    unfold redo
    simp [he]
  simp [hfst, cache_response_version, redo_version]

/-- A successful upload resets the version to 0 (it does not bump it). -/
theorem upload_endpoint_version (s : DocumentState) (parsed : List Para)
    (d : String) (b : Int) (c : String) (page : Int)
    (hc : get_cached_response s d b c page = none)
    (hv : validate_version s d b = none) :
    ((upload_endpoint s parsed d b c page).2).version = 0 := by
  unfold upload_endpoint
  simp only [hc, hv]
  simp [cache_response_version, load_from_stream]

/-! ## C3 — silent no-op on unresolved addresses -/

/-- C3 counterexample: `update_range_style` on an address that does not
resolve returns with the state completely untouched — in particular its
undo stack differs from the one `record_change` would have produced — so
the claim that every edit operation still records a history change on an
unresolved address is false for the range-style operations. -/
theorem C3_counterexample :
    findRun s0.doc 99 = none ∧
    (update_range_style s0 0 99 0 99 1 stRed).2 = s0 ∧
    ((update_range_style s0 0 99 0 99 1 stRed).2).undo_stack ≠
      (record_change s0 0 (some "style")).undo_stack := by
  refine ⟨by decide, rfl, by decide⟩

/-- C3 (amended): an edit whose address does not resolve to a live run
leaves the document content unchanged while the endpoint still bumps the
version by 1; the five text-editing operations still run `record_change`
first (the returned state is exactly the recorded one), but
`update_node_style`/`update_range_style` return before `record_change`,
leaving the state — history included — completely untouched. -/
theorem C3_unresolved_address_no_op :
    (∀ (s : DocumentState) (now : ℚ) (nid : Nat) (off : Int) (t : List Char)
       (st : Option StyleUpdate), findRun s.doc nid = none →
       insert_text s now nid off t st = record_change s now (some "insert")) ∧
    (∀ (s : DocumentState) (now : ℚ) (sId : Nat) (a : Int) (eId : Nat) (b : Int),
       findRun s.doc sId = none ∨ findRun s.doc eId = none →
       delete_range s now sId a eId b = record_change s now (some "delete")) ∧
    (∀ (s : DocumentState) (now : ℚ) (nid : Nat) (off : Int), findRun s.doc nid = none →
       delete_backward s now nid off = (⟨nid, max 0 off⟩, record_change s now (some "delete"))) ∧
    (∀ (s : DocumentState) (now : ℚ) (nid : Nat) (off : Int), findRun s.doc nid = none →
       delete_forward s now nid off = (⟨nid, max 0 off⟩, record_change s now (some "delete"))) ∧
    (∀ (s : DocumentState) (now : ℚ) (nid : Nat) (off : Int), findRun s.doc nid = none →
       insert_break s now nid off = (⟨nid, 0⟩, record_change s now (some "break"))) ∧
    (∀ (s : DocumentState) (now : ℚ) (sId : Nat) (a : Int) (eId : Nat) (b : Int)
       (st : StyleUpdate), findRun s.doc sId = none ∨ findRun s.doc eId = none →
       update_range_style s now sId a eId b st = (none, s)) ∧
    (∀ (s : DocumentState) (now : ℚ) (nid : Nat) (a b : Int) (st : StyleUpdate),
       findRun s.doc nid = none →
       update_node_style s now nid a b st = (none, s)) ∧
    (∀ (s : DocumentState) (data : TextInsert) (page : Int) (now : ℚ),
       get_cached_response s data.doc_id data.base_version data.client_op_id page = none →
       validate_version s data.doc_id data.base_version = none →
       ((insert_text_endpoint s data page now).2).version = s.version + 1) ∧
    (∀ (s : DocumentState) (data : RangeDelete) (page : Int) (now : ℚ),
       get_cached_response s data.doc_id data.base_version data.client_op_id page = none →
       validate_version s data.doc_id data.base_version = none →
       ((delete_range_endpoint s data page now).2).version = s.version + 1) ∧
    (∀ (s : DocumentState) (data : CaretPosition) (page : Int) (now : ℚ),
       get_cached_response s data.doc_id data.base_version data.client_op_id page = none →
       validate_version s data.doc_id data.base_version = none →
       ((delete_backward_endpoint s data page now).2).version = s.version + 1 ∧
       ((delete_forward_endpoint s data page now).2).version = s.version + 1 ∧
       ((insert_break_endpoint s data page now).2).version = s.version + 1) ∧
    (∀ (s : DocumentState) (data : NodeUpdate) (page : Int) (now : ℚ),
       get_cached_response s data.doc_id data.base_version data.client_op_id page = none →
       validate_version s data.doc_id data.base_version = none →
       ((update_node_endpoint s data page now).2).version = s.version + 1) ∧
    (∀ (s : DocumentState) (data : RangeUpdate) (page : Int) (now : ℚ),
       get_cached_response s data.doc_id data.base_version data.client_op_id page = none →
       validate_version s data.doc_id data.base_version = none →
       ((update_range_endpoint s data page now).2).version = s.version + 1) := by
  refine ⟨?_, ?_, ?_, ?_, ?_, ?_, ?_, ?_, ?_, ?_, ?_, ?_⟩
  · intro s now nid off t st h
    unfold insert_text
    simp only [record_change_doc, h]
  · intro s now sId a eId b h
    unfold delete_range
    rcases h with h | h
    · simp only [record_change_doc, h]
    · cases h1 : findRun s.doc sId <;>
        simp only [record_change_doc, h1, h]
  · intro s now nid off h
    unfold delete_backward
    simp only [record_change_doc, h]
  · intro s now nid off h
    unfold delete_forward
    simp only [record_change_doc, h]
  · intro s now nid off h
    unfold insert_break
    simp only [record_change_doc, h]
  · intro s now sId a eId b st h
    unfold update_range_style
    rcases h with h | h
    · simp only [h]
    · cases h1 : findRun s.doc sId <;> simp only [h1, h]
  · intro s now nid a b st h
    unfold update_node_style update_range_style
    simp only [h]
  · exact insert_text_endpoint_version
  · exact delete_range_endpoint_version
  · intro s data page now hc hv
    exact ⟨delete_backward_endpoint_version s data page now hc hv,
           delete_forward_endpoint_version s data page now hc hv,
           insert_break_endpoint_version s data page now hc hv⟩
  · exact update_node_endpoint_version
  · exact update_range_endpoint_version

/-- Witness for C3 (amended): on `s0` the address 99 does not resolve, and
`insert_text` at it is exactly the recorded-but-unapplied state; the
insert_text endpoint with a fresh valid request still bumps the version. -/
theorem C3_unresolved_address_no_op_witness :
    insert_text s0 0 99 0 "x".toList none = record_change s0 0 (some "insert") ∧
    ((insert_text_endpoint s0
        { doc_id := "doc0", base_version := 0, client_op_id := "op1",
          node_id := 99, offset := 0, text := "x".toList, style := none }
        1 0).2).version = s0.version + 1 :=
  ⟨C3_unresolved_address_no_op.1 s0 0 99 0 "x".toList none (by decide),
   C3_unresolved_address_no_op.2.2.2.2.2.2.2.1 s0
     { doc_id := "doc0", base_version := 0, client_op_id := "op1",
       node_id := 99, offset := 0, text := "x".toList, style := none }
     1 0 (by decide) (by decide)⟩

/-! ## C7 — upload and the history stacks -/

theorem load_from_stream_undo_stack (s : DocumentState) (parsed : List Para) :
    (load_from_stream s parsed).undo_stack = s.undo_stack := rfl

theorem load_from_stream_redo_stack (s : DocumentState) (parsed : List Para) :
    (load_from_stream s parsed).redo_stack = s.redo_stack := rfl

/-- C7 counterexample: an upload performed after one prior edit reports
undoDepth 2, not 1 — `load_from_stream` never clears the history stacks,
and the upload pushes the pre-upload snapshot on top of whatever undo
history already existed. -/
theorem C7_counterexample :
    ((upload_endpoint sPre parsedEx "doc0" 1 "op2" 1).1).history.undoDepth = 2 ∧
    ((upload_endpoint sPre parsedEx "doc0" 1 "op2" 1).1).history.undoDepth ≠ 1 := by
  refine ⟨by decide, by decide⟩

/-- C7 (amended): a successful upload does not clear the undo stack; it
pushes the pre-upload document as one more (FIFO-bounded) undo entry on
top of the existing stack and clears the redo stack, so the response
reports undoDepth = |push(undo, snapshot)| (that is, previous depth + 1,
capped at 50) and redoDepth = 0; undoDepth is 1 only when no history
preceded the upload. -/
theorem C7_upload_history (s : DocumentState) (parsed : List Para) (d : String)
    (b : Int) (c : String) (page : Int)
    (hc : get_cached_response s d b c page = none)
    (hv : validate_version s d b = none) :
    ((upload_endpoint s parsed d b c page).2).undo_stack
        = push_undo_snapshot s.undo_stack (serialize_doc s) ∧
    ((upload_endpoint s parsed d b c page).2).redo_stack = [] ∧
    ((upload_endpoint s parsed d b c page).1).history.undoDepth
        = (push_undo_snapshot s.undo_stack (serialize_doc s)).length ∧
    ((upload_endpoint s parsed d b c page).1).history.redoDepth = 0 := by
  unfold upload_endpoint
  simp only [hc, hv]
  refine ⟨?_, ?_, ?_, ?_⟩ <;>
    simp [cache_response_undo_stack, cache_response_redo_stack, history,
      load_from_stream_undo_stack, load_from_stream_redo_stack]

/-- Witness for C7 (amended): uploading over the fresh state `s0` yields
exactly one undo entry (the pre-upload document) and an empty redo stack. -/
theorem C7_upload_history_witness :
    ((upload_endpoint s0 parsedEx "doc0" 0 "op2" 1).2).undo_stack
        = push_undo_snapshot s0.undo_stack (serialize_doc s0) ∧
    ((upload_endpoint s0 parsedEx "doc0" 0 "op2" 1).2).redo_stack = [] ∧
    ((upload_endpoint s0 parsedEx "doc0" 0 "op2" 1).1).history.undoDepth
        = (push_undo_snapshot s0.undo_stack (serialize_doc s0)).length ∧
    ((upload_endpoint s0 parsedEx "doc0" 0 "op2" 1).1).history.redoDepth = 0 :=
  C7_upload_history s0 parsedEx "doc0" 0 "op2" 1 (by decide) (by decide)

/-! ## C2 — version monotonicity -/

/-- C2 counterexample: an undo request with matching docId and
baseVersion while the undo stack is empty is accepted (cache miss and no
conflict) yet leaves the version unchanged, refuting "version increases
by exactly 1 on every accepted mutating request". -/
theorem C2_counterexample :
    lookupCached s0 (Request.undoRequest rUndo 1) = none ∧
    validate_version s0 "doc0" 0 = none ∧
    ((handle s0 (Request.undoRequest rUndo 1)).2).version = s0.version := by
  refine ⟨by decide, by decide, by decide⟩

/-- C2 (amended): on a fresh (not cached) non-conflicting request, the
version increases by exactly 1 for every edit endpoint, and for undo/redo
when the corresponding stack is non-empty; an undo/redo whose stack is
empty leaves the version unchanged, and an upload resets the version to 0
with the new document identity.  A conflicting request (doc_conflict or
version_conflict) leaves the whole server state — document, version,
history and cache — exactly unchanged. -/
theorem C2_version_monotonicity :
    (∀ (s : DocumentState) (req : Request),
       lookupCached s req = none →
       validate_version s req.reqDocId req.reqBaseVersion = none →
       isEditRequest req = true →
       ((handle s req).2).version = s.version + 1) ∧
    (∀ (s : DocumentState) (data : HistoryOpRequest) (page : Int),
       lookupCached s (Request.undoRequest data page) = none →
       validate_version s data.doc_id data.base_version = none →
       (s.undo_stack ≠ [] →
         ((handle s (Request.undoRequest data page)).2).version = s.version + 1) ∧
       (s.undo_stack = [] →
         ((handle s (Request.undoRequest data page)).2).version = s.version)) ∧
    (∀ (s : DocumentState) (data : HistoryOpRequest) (page : Int),
       lookupCached s (Request.redoRequest data page) = none →
       validate_version s data.doc_id data.base_version = none →
       (s.redo_stack ≠ [] →
         ((handle s (Request.redoRequest data page)).2).version = s.version + 1) ∧
       (s.redo_stack = [] →
         ((handle s (Request.redoRequest data page)).2).version = s.version)) ∧
    (∀ (s : DocumentState) (parsed : List Para) (d : String) (b : Int) (c : String)
       (page : Int),
       get_cached_response s d b c page = none →
       validate_version s d b = none →
       ((handle s (Request.uploadRequest parsed d b c page)).2).version = 0) ∧
    (∀ (s : DocumentState) (req : Request) (c : Conflict),
       validate_version s req.reqDocId req.reqBaseVersion = some c →
       (handle s req).2 = s) := by
  refine ⟨?_, ?_, ?_, ?_, ?_⟩
  · intro s req hc hv hedit
    cases req with
    | insertText data page now => exact insert_text_endpoint_version s data page now hc hv
    | deleteRange data page now => exact delete_range_endpoint_version s data page now hc hv
    | deleteBackward data page now => exact delete_backward_endpoint_version s data page now hc hv
    | deleteForward data page now => exact delete_forward_endpoint_version s data page now hc hv
    | insertBreak data page now => exact insert_break_endpoint_version s data page now hc hv
    | updateDocument data page now => exact update_document_endpoint_version s data page now hc hv
    | updateNode data page now => exact update_node_endpoint_version s data page now hc hv
    | updateRange data page now => exact update_range_endpoint_version s data page now hc hv
    | undoRequest data page => simp [isEditRequest] at hedit
    | redoRequest data page => simp [isEditRequest] at hedit
    | uploadRequest parsed d b c page => simp [isEditRequest] at hedit
  · intro s data page hc hv
    exact ⟨fun hne => undo_endpoint_version_nonempty s data page hc hv hne,
           fun he => undo_endpoint_version_empty s data page hc hv he⟩
  · intro s data page hc hv
    exact ⟨fun hne => redo_endpoint_version_nonempty s data page hc hv hne,
           fun he => redo_endpoint_version_empty s data page hc hv he⟩
  · intro s parsed d b c page hc hv
    exact upload_endpoint_version s parsed d b c page hc hv
  · intro s req c hv
    cases req <;>
      simp only [handle, insert_text_endpoint, delete_range_endpoint,
        delete_backward_endpoint, delete_forward_endpoint, insert_break_endpoint,
        update_document_endpoint, update_node_endpoint, update_range_endpoint,
        undo_endpoint, redo_endpoint, upload_endpoint] <;>
      split <;>
      simp_all [Request.reqDocId, Request.reqBaseVersion]

/-- Witness for C2 (amended): a fresh valid insertText request on `s0`
bumps the version from 0 to 1. -/
theorem C2_version_monotonicity_witness :
    ((handle s0 (Request.insertText rIns 1 0)).2).version = s0.version + 1 :=
  C2_version_monotonicity.1 s0 (Request.insertText rIns 1 0) (by decide) (by decide) rfl

/-! ## C1 — idempotent replay -/

theorem find?_append_singleton {α : Type} (p : α → Bool) (l : List α) (x : α)
    (hl : ∀ y ∈ l, ¬p y = true) (hx : p x = true) :
    (l ++ [x]).find? p = some x := by
  induction l with
  | nil => simp [List.find?, hx]
  | cons a as ih =>
      have ha := hl a (List.mem_cons_self a as)
      simp only [List.cons_append, List.find?]
      rw [Bool.eq_false_iff.mpr ha]
      exact ih (fun y hy => hl y (List.mem_cons_of_mem a hy))

/-- Storing a fresh key in the cache makes it immediately retrievable:
the new entry sits at the back of the FIFO order, so the bounded eviction
(which drops from the front) cannot remove it, and first-write-wins does
not fire because the key was absent. -/
theorem get_cached_after_store (s : DocumentState) (d : String) (b : Int)
    (c : String) (p : Int) (pl : Payload)
    (h : get_cached_response s d b c p = none) :
    get_cached_response (cache_response s d b c p pl) d b c p = some pl := by
  have hfind : s.applied_ops.find?
      (fun kv => kv.1 = op_cache_key d b c p) = none := by
    unfold get_cached_response at h
    cases hf : s.applied_ops.find? (fun kv => kv.1 = op_cache_key d b c p) with
    | none => rfl
    | some kv => rw [hf] at h; simp at h
  have hall : ∀ kv ∈ s.applied_ops,
      ¬(decide (kv.1 = op_cache_key d b c p)) = true := by
    intro kv hkv
    simpa using List.find?_eq_none.mp hfind kv hkv
  unfold cache_response
  simp only []
  rw [hfind]
  simp only [Option.isSome_none, Bool.false_eq_true, if_false]
  unfold get_cached_response
  by_cases hlen : (s.applied_ops ++ [(op_cache_key d b c p, pl)]).length > max_applied_ops
  · rw [if_pos hlen]
    have hm : (s.applied_ops ++ [(op_cache_key d b c p, pl)]).length - max_applied_ops
        ≤ s.applied_ops.length := by
      simp only [List.length_append, List.length_singleton] at *
      unfold max_applied_ops at *
      omega
    rw [List.drop_append_of_le_length hm]
    rw [find?_append_singleton _ _ _
      (fun y hy => hall y (List.mem_of_mem_drop hy)) (by simp)]
    rfl
  · rw [if_neg hlen]
    rw [find?_append_singleton _ _ _ hall (by simp)]
    rfl

/-- Combination used by every endpoint case: the edit pipeline does not
touch the cache, so storing the fresh response under the lookup key makes
the subsequent lookup return it. -/
theorem stored_lookup (s s2 : DocumentState) (d : String) (b : Int) (c : String)
    (p : Int) (pl : Payload)
    (hops : s2.applied_ops = s.applied_ops)
    (hc : get_cached_response s d b c p = none) :
    get_cached_response (cache_response s2 d b c p pl) d b c p = some pl := by
  apply get_cached_after_store
  rw [get_cached_congr s2 s d b c p hops]
  exact hc

/-- A page parameter that the clamp leaves unchanged (with the modelled
single-page renderer the clamp bound is `page_count _ = 1`). -/
theorem clampPage_fixed_eq_one (page : Int) (h : page = clampPage page 1) : page = 1 := by
  unfold clampPage at h
  omega

/-- C1 counterexample: an insert_text request with page parameter 0 is
applied (it was fresh and non-conflicting, and its cache entry — stored
under the clamped page 1 — is still present), yet replaying the identical
request returns a different payload: the lookup misses (raw page 0 differs
from the stored page 1) and the advanced version turns the replay into a
version_conflict response. -/
theorem C1_counterexample :
    lookupCached s0 (Request.insertText rIns 0 0) = none ∧
    validate_version s0 "doc0" 0 = none ∧
    ((insert_text_endpoint s0 rIns 0 0).2).applied_ops.length = 1 ∧
    (insert_text_endpoint (insert_text_endpoint s0 rIns 0 0).2 rIns 0 0).1 ≠
      (insert_text_endpoint s0 rIns 0 0).1 := by
  refine ⟨by decide, by decide, by decide, by decide⟩

set_option maxHeartbeats 2000000 in
/-- C1 (amended): replaying a request whose cached entry is found returns
exactly the cached payload with the server state untouched (the edit is
not re-executed); a fresh, non-conflicting request stores its response
under its own (docId, baseVersion, clientOpId, clamped-page) key, so
whenever the requested page equals its clamped value (for the modelled
single-page renderer, `clampPage page 1`; the upload endpoint always
stores under page 1), an immediate replay of the identical request
returns exactly the payload of the first application and changes
nothing.  With a page parameter outside the clamp range the lookup key
differs from the storage key and the replay instead reports a conflict
(the counterexample), though it still never re-executes the edit. -/
theorem C1_idempotent_replay :
    (∀ (s : DocumentState) (req : Request) (p : Payload),
       lookupCached s req = some p → handle s req = (p, s)) ∧
    (∀ (s : DocumentState) (req : Request),
       lookupCached s req = none →
       validate_version s req.reqDocId req.reqBaseVersion = none →
       req.reqPage = clampPage req.reqPage 1 →
       lookupCached ((handle s req).2) req = some ((handle s req).1)) ∧
    (∀ (s : DocumentState) (req : Request),
       lookupCached s req = none →
       validate_version s req.reqDocId req.reqBaseVersion = none →
       req.reqPage = clampPage req.reqPage 1 →
       handle ((handle s req).2) req = ((handle s req).1, (handle s req).2)) := by
  have hA : ∀ (s : DocumentState) (req : Request) (p : Payload),
      lookupCached s req = some p → handle s req = (p, s) := by
    intro s req p hc
    cases req <;>
      simp only [lookupCached, Request.reqDocId, Request.reqBaseVersion,
        Request.reqClientOpId, Request.reqPage] at hc <;>
      simp only [handle, insert_text_endpoint, delete_range_endpoint,
        delete_backward_endpoint, delete_forward_endpoint, insert_break_endpoint,
        update_document_endpoint, update_node_endpoint, update_range_endpoint,
        undo_endpoint, redo_endpoint, upload_endpoint, hc]
  have hB : ∀ (s : DocumentState) (req : Request),
      lookupCached s req = none →
      validate_version s req.reqDocId req.reqBaseVersion = none →
      req.reqPage = clampPage req.reqPage 1 →
      lookupCached ((handle s req).2) req = some ((handle s req).1) := by
    intro s req hc hv hpage
    cases req with
    | insertText data page now =>
        simp only [lookupCached, Request.reqDocId, Request.reqBaseVersion,
          Request.reqClientOpId, Request.reqPage] at hc hv hpage ⊢
        simp only [handle, insert_text_endpoint, hc, hv]
        cases hp : make_paragraph_patch_by_run_id
            (bump_version (insert_text s now data.node_id data.offset data.text
              data.style)).doc data.node_id <;>
          simp only [hp] <;>
          simp only [page_count] <;>
          rw [← hpage] <;>
          exact stored_lookup s _ _ _ _ _ _
            (by simp [bump_version_applied_ops, insert_text_applied_ops]) hc
    | deleteRange data page now =>
        simp only [lookupCached, Request.reqDocId, Request.reqBaseVersion,
          Request.reqClientOpId, Request.reqPage] at hc hv hpage ⊢
        simp only [handle, delete_range_endpoint, hc, hv]
        cases hp : make_single_paragraph_patch_if_same_paragraph
            (bump_version (delete_range s now data.start_node_id data.start_offset
              data.end_node_id data.end_offset)).doc
            data.start_node_id data.end_node_id <;>
          simp only [hp] <;>
          simp only [page_count] <;>
          rw [← hpage] <;>
          exact stored_lookup s _ _ _ _ _ _
            (by simp [bump_version_applied_ops, delete_range_applied_ops]) hc
    | deleteBackward data page now =>
        simp only [lookupCached, Request.reqDocId, Request.reqBaseVersion,
          Request.reqClientOpId, Request.reqPage] at hc hv hpage ⊢
        simp only [handle, delete_backward_endpoint, hc, hv]
        cases hp : make_paragraph_patch_by_run_id
            (bump_version (repeatDeleteBackward (max 1 data.count).toNat now
              ⟨data.node_id, max 0 data.offset⟩ s).2).doc
            (repeatDeleteBackward (max 1 data.count).toNat now
              ⟨data.node_id, max 0 data.offset⟩ s).1.node_id <;>
          simp only [hp] <;>
          simp only [page_count] <;>
          rw [← hpage] <;>
          exact stored_lookup s _ _ _ _ _ _
            (by simp [bump_version_applied_ops, repeatDeleteBackward_applied_ops]) hc
    | deleteForward data page now =>
        simp only [lookupCached, Request.reqDocId, Request.reqBaseVersion,
          Request.reqClientOpId, Request.reqPage] at hc hv hpage ⊢
        simp only [handle, delete_forward_endpoint, hc, hv]
        cases hp : make_paragraph_patch_by_run_id
            (bump_version (repeatDeleteForward (max 1 data.count).toNat now
              ⟨data.node_id, max 0 data.offset⟩ s).2).doc
            (repeatDeleteForward (max 1 data.count).toNat now
              ⟨data.node_id, max 0 data.offset⟩ s).1.node_id <;>
          simp only [hp] <;>
          simp only [page_count] <;>
          rw [← hpage] <;>
          exact stored_lookup s _ _ _ _ _ _
            (by simp [bump_version_applied_ops, repeatDeleteForward_applied_ops]) hc
    | insertBreak data page now =>
        simp only [lookupCached, Request.reqDocId, Request.reqBaseVersion,
          Request.reqClientOpId, Request.reqPage] at hc hv hpage ⊢
        simp only [handle, insert_break_endpoint, hc, hv]
        simp only [page_count]
        rw [← hpage]
        exact stored_lookup s _ _ _ _ _ _
          (by simp [bump_version_applied_ops, insert_break_applied_ops]) hc
    | updateDocument data page now =>
        simp only [lookupCached, Request.reqDocId, Request.reqBaseVersion,
          Request.reqClientOpId, Request.reqPage] at hc hv hpage ⊢
        simp only [handle, update_document_endpoint, hc, hv]
        simp only [page_count]
        rw [← hpage]
        exact stored_lookup s _ _ _ _ _ _
          (by simp [bump_version_applied_ops, update_style_applied_ops]) hc
    | updateNode data page now =>
        simp only [lookupCached, Request.reqDocId, Request.reqBaseVersion,
          Request.reqClientOpId, Request.reqPage] at hc hv hpage ⊢
        simp only [handle, update_node_endpoint, hc, hv]
        cases hp : make_paragraph_patch_by_run_id
            (bump_version (update_node_style s now data.node_id data.start_offset
              data.end_offset data.style).2).doc data.node_id <;>
          simp only [hp] <;>
          simp only [page_count] <;>
          rw [← hpage] <;>
          exact stored_lookup s _ _ _ _ _ _
            (by simp [bump_version_applied_ops, update_node_style,
              update_range_style_applied_ops]) hc
    | updateRange data page now =>
        simp only [lookupCached, Request.reqDocId, Request.reqBaseVersion,
          Request.reqClientOpId, Request.reqPage] at hc hv hpage ⊢
        simp only [handle, update_range_endpoint, hc, hv]
        cases hp : make_single_paragraph_patch_if_same_paragraph
            (bump_version (update_range_style s now data.start_node_id
              data.start_offset data.end_node_id data.end_offset data.style).2).doc
            data.start_node_id data.end_node_id <;>
          simp only [hp] <;>
          simp only [page_count] <;>
          rw [← hpage] <;>
          exact stored_lookup s _ _ _ _ _ _
            (by simp [bump_version_applied_ops, update_range_style_applied_ops]) hc
    | undoRequest data page =>
        simp only [lookupCached, Request.reqDocId, Request.reqBaseVersion,
          Request.reqClientOpId, Request.reqPage] at hc hv hpage ⊢
        simp only [handle, undo_endpoint, hc, hv]
        simp only [page_count]
        rw [← hpage]
        exact stored_lookup s _ _ _ _ _ _
          (by cases hu : (undo s).1 <;>
            simp [hu, bump_version_applied_ops, undo_applied_ops]) hc
    | redoRequest data page =>
        simp only [lookupCached, Request.reqDocId, Request.reqBaseVersion,
          Request.reqClientOpId, Request.reqPage] at hc hv hpage ⊢
        simp only [handle, redo_endpoint, hc, hv]
        simp only [page_count]
        rw [← hpage]
        exact stored_lookup s _ _ _ _ _ _
          (by cases hu : (redo s).1 <;>
            simp [hu, bump_version_applied_ops, redo_applied_ops]) hc
    | uploadRequest parsed d b c page =>
        simp only [lookupCached, Request.reqDocId, Request.reqBaseVersion,
          Request.reqClientOpId, Request.reqPage] at hc hv hpage ⊢
        have hp1 : page = 1 := clampPage_fixed_eq_one page hpage
        subst hp1
        simp only [handle, upload_endpoint, hc, hv]
        exact stored_lookup s _ _ _ _ _ _
          (by simp [load_from_stream_applied_ops]) hc
  refine ⟨hA, hB, ?_⟩
  intro s req hc hv hpage
  exact hA _ _ _ (hB s req hc hv hpage)

/-- Witness for C1 (amended): replaying the insert_text request `rIns` on
page 1 immediately after its first application returns the same payload
and leaves the state unchanged. -/
theorem C1_idempotent_replay_witness :
    handle ((handle s0 (Request.insertText rIns 1 0)).2) (Request.insertText rIns 1 0)
      = ((handle s0 (Request.insertText rIns 1 0)).1,
         (handle s0 (Request.insertText rIns 1 0)).2) :=
  C1_idempotent_replay.2.2 s0 (Request.insertText rIns 1 0)
    (by decide) (by decide) (by decide)


end AsposeBackend
